import Mathlib

/-!
Verification development for the echojam generation-orchestration and
canonical-stop deduplication core.

The definitions below are a shallow embedding of the TypeScript source:

* `src/lib/canonicalStops.ts` (canonical stop resolver, route-stop mappings);
* `src/lib/mixGeneration.ts` (normalisation helpers, mode switch);
* `src/app/api/preset-jobs/create/route.ts` (preset generation orchestrator);
* `src/app/api/mix-jobs/create/route.ts` (mix generation orchestrator).

Modelling conventions, stated once:

* JS `number` coordinates are embedded as `ℚ`.  `Math.hypot(dLat, dLng)` is
  carried as the squared distance `dLat^2 + dLng^2`, and every threshold the
  source compares a distance against is squared accordingly; since `hypot` is
  monotone in the squared sum, every comparison in the source is preserved.
* `Math.cos` composed with the degree-to-radian conversion is abstracted as an
  explicit function argument `cosAvg : ℚ → ℚ`; theorems that need it assume
  only `|cosAvg x| ≤ 1`, which holds for the real cosine.
* Canonical ids are computed in the source as
  `prefix + "-" + sha1(key).hex.slice(0, 20)`.  The truncated digest is
  abstracted as the key itself (constructor `CanonId.preset` / `CanonId.custom`
  holding the key components), i.e. the digest is assumed collision-free.
  The numeric components rendered with `toFixed(6)` are kept as the rounded
  integer `round (q * 10^6)`.
* The relational store is a list of rows; `insert` appends, `update ... eq(id)`
  maps over the list, `upsert` replaces the row with the conflicting key or
  appends.  Store operations are modelled as always succeeding.
* The external script-generation and speech-synthesis/upload capabilities are
  oracles (`ScriptOutcome` / `AudioOutcome` per loop index): `ok` carries the
  returned text/URL, `err` carries the thrown error message.
-/

/-- Structural model of the whitespace-stripping of JS `String.trim` /
Lean `String.trim` over the character list (left side). -/
def trimLeftChars : List Char → List Char
  | [] => []
  | c :: rest => if c.isWhitespace then trimLeftChars rest else c :: rest

/-- Model of `value.trim()`: strip whitespace from both ends.  Implemented
structurally over `String.data` so that proofs can evaluate it (the library
`String.trim` does not reduce definitionally). -/
def jsTrim (s : String) : String :=
  ⟨(trimLeftChars ((trimLeftChars s.data).reverse)).reverse⟩

/-- Model of `value.toLowerCase()` (ASCII), structurally over the character
list. -/
def jsToLower (s : String) : String :=
  ⟨s.data.map Char.toLower⟩

/-- Structural substring search over character lists. -/
def hasSubstringAux (pat : List Char) : List Char → Bool
  | [] => pat.isPrefixOf ([] : List Char)
  | c :: rest => pat.isPrefixOf (c :: rest) || hasSubstringAux pat rest

/-- Model of JS `value.includes(pat)`. -/
def containsSubstr (s pat : String) : Bool :=
  hasSubstringAux pat.data s.data

/-- Model of `value.startsWith(p)`, structurally over the character lists. -/
def strStartsWith (s p : String) : Bool :=
  p.data.isPrefixOf s.data

/-- Image provenance marker of a canonical stop row (`image_source` column). -/
inductive ImageSource where
  | places
  | curated
  | placeholder
  | link_seed
deriving DecidableEq, Repr

/-- Canonical stop identity.  Source: `canonicalId(prefix, key)` returns
`prefix-sha1(key)[0:20]`; the digest is abstracted as the key components
(see the module comment). -/
inductive CanonId where
  | preset (city stopLocalId : String)
  | custom (city titleLower : String) (lat6 lng6 : ℤ)
deriving DecidableEq, Repr

/-- Tour-local stop payload (`StopInput` in `mixGeneration.ts`). -/
structure StopInput where
  id : String
  title : String
  lat : ℚ
  lng : ℚ
  image : String
deriving DecidableEq, Repr

/-- Canonical stop record (`CanonicalStopRow` in `canonicalStops.ts`); the
columns never read by the resolver logic (`fallback_image_url`,
`google_place_id`, `image_last_checked_at`) are omitted. -/
structure CanonicalStopRow where
  id : CanonId
  city : String
  title : String
  lat : ℚ
  lng : ℚ
  image_url : Option String
  image_source : Option ImageSource
deriving DecidableEq, Repr

/-- Source: `CANONICAL_MATCH_RADIUS_METERS = 50`. -/
def CANONICAL_MATCH_RADIUS_METERS : ℚ := 50

/-- Squared planar-approximation distance.  Source `distanceMeters` returns
`Math.hypot(dLat, dLng)`; we carry the square (see module comment).
`cosAvg` stands for `Math.cos(((aLat+bLat)/2) * π/180)`. -/
def distanceMetersSq (cosAvg : ℚ → ℚ) (aLat aLng bLat bLng : ℚ) : ℚ :=
  let metersPerLat : ℚ := 111320
  let metersPerLng : ℚ := 111320 * cosAvg ((aLat + bLat) / 2)
  let dLat := (aLat - bLat) * metersPerLat
  let dLng := (aLng - bLng) * metersPerLng
  dLat ^ 2 + dLng ^ 2

/-- Source loop body of `findNearestCanonicalStop`: keep the strictly nearer
row (`d < bestDistance`); `none` plays the part of the initial
`best = null, bestDistance = ∞` pair, for which any row wins. -/
def nearestStep (cosAvg : ℚ → ℚ) (lat lng : ℚ)
    (best : Option (CanonicalStopRow × ℚ)) (row : CanonicalStopRow) :
    Option (CanonicalStopRow × ℚ) :=
  let d := distanceMetersSq cosAvg lat lng row.lat row.lng
  match best with
  | none => some (row, d)
  | some (b, bd) => if d < bd then some (row, d) else some (b, bd)

/-- Source scan of `findNearestCanonicalStop` over the same-city rows. -/
def nearestScan (cosAvg : ℚ → ℚ) (lat lng : ℚ) (rows : List CanonicalStopRow) :
    Option (CanonicalStopRow × ℚ) :=
  rows.foldl (nearestStep cosAvg lat lng) none

/-- Source: `findNearestCanonicalStop` — select the same-city rows, take the
nearest, return `null` when there is none or it is beyond the 50 m radius
(squared here). -/
def findNearestCanonicalStop (cosAvg : ℚ → ℚ) (store : List CanonicalStopRow)
    (city : String) (lat lng : ℚ) : Option CanonicalStopRow :=
  match nearestScan cosAvg lat lng (store.filter (fun r => decide (r.city = city))) with
  | none => none
  | some (best, bestDistance) =>
    if bestDistance > CANONICAL_MATCH_RADIUS_METERS ^ 2 then none else some best

/-- Source: `isPlaceholderImage` — null/blank, or the trimmed lowercased value
contains `/placeholder-`. -/
def isPlaceholderImage : Option String → Bool
  | none => true
  | some url =>
    let value := jsToLower (jsTrim url)
    if value = "" then true
    else containsSubstr value "/placeholder-"

/-- Source: `isStrongImageSource` — `places` or `curated`. -/
def isStrongImageSource : Option ImageSource → Bool
  | some ImageSource.places => true
  | some ImageSource.curated => true
  | _ => false

/-- JS truthiness of a nullable string column (`!value` is true for null and
for the empty string). -/
def optTruthy : Option String → Bool
  | none => false
  | some s => !(s == "")

/-- Source: `getCanonicalStopById` — `select ... eq("id", id) maybeSingle`. -/
def getCanonicalStopById (store : List CanonicalStopRow) (id : CanonId) :
    Option CanonicalStopRow :=
  store.find? (fun r => decide (r.id = id))

/-- Store effect of `update({image_url, image_source: "link_seed"}).eq("id", id)`. -/
def updateImageById (store : List CanonicalStopRow) (id : CanonId) (url : String) :
    List CanonicalStopRow :=
  store.map (fun r =>
    if r.id = id then
      { r with image_url := some url, image_source := some ImageSource.link_seed }
    else r)

/-- Store effect of the preset-path refresh
`update({city, title, lat, lng, source}).eq("id", id)` (the `source` column is
not part of the modelled row). -/
def refreshPresetFields (store : List CanonicalStopRow) (id : CanonId)
    (city title : String) (lat lng : ℚ) : List CanonicalStopRow :=
  store.map (fun r =>
    if r.id = id then { r with city := city, title := title, lat := lat, lng := lng }
    else r)

/-- Source: `seedLinkImageIfAllowed` — refuse blank/placeholder incoming images,
never overwrite a strong (`places`/`curated`) source, never overwrite a
non-placeholder `link_seed` image; otherwise write the incoming image with
source `link_seed`.  Returns the (possibly updated) store and row. -/
def seedLinkImageIfAllowed (store : List CanonicalStopRow) (row : CanonicalStopRow)
    (imageUrl : Option String) : List CanonicalStopRow × CanonicalStopRow :=
  let incoming := jsTrim (imageUrl.getD "")
  if incoming = "" ∨ isPlaceholderImage (some incoming) then (store, row)
  else if isStrongImageSource row.image_source then (store, row)
  else if row.image_source = some ImageSource.link_seed ∧
      isPlaceholderImage row.image_url = false then (store, row)
  else
    (updateImageById store row.id incoming,
     { row with image_url := some incoming, image_source := some ImageSource.link_seed })

/-- Source: `canonicalIdForPresetStop` — key `city|stop.id` under prefix
`canon-preset`. -/
def canonicalIdForPresetStop (city : String) (stop : StopInput) : CanonId :=
  CanonId.preset city stop.id

/-- Model of JS `q.toFixed(6)` as the integer numerator after rounding to six
decimal places. -/
def toFixed6 (q : ℚ) : ℤ := round (q * 1000000)

/-- Source: `canonicalIdForCustomStop` — key
`city|title.toLowerCase()|lat.toFixed(6)|lng.toFixed(6)` under prefix
`canon-custom`. -/
def canonicalIdForCustomStop (city : String) (stop : StopInput) : CanonId :=
  CanonId.custom city (jsToLower stop.title) (toFixed6 stop.lat) (toFixed6 stop.lng)

/-- Row inserted by `ensureCanonicalStopForPreset` when the deterministic id
is absent (insert branch of the source). -/
def presetInsertRow (city : String) (stop : StopInput) : CanonicalStopRow :=
  { id := canonicalIdForPresetStop city stop, city := city, title := stop.title
    lat := stop.lat, lng := stop.lng
    image_url := if isPlaceholderImage (some stop.image) then none else some stop.image
    image_source :=
      some (if isPlaceholderImage (some stop.image) then ImageSource.placeholder
            else ImageSource.link_seed) }

/-- Row inserted by `ensureCanonicalStopForCustom` when neither a nearby row
nor the deterministic id exists (insert branch of the source). -/
def customInsertRow (city : String) (stop : StopInput) : CanonicalStopRow :=
  { id := canonicalIdForCustomStop city stop, city := city, title := stop.title
    lat := stop.lat, lng := stop.lng
    image_url := if jsTrim stop.image = "" then none else some (jsTrim stop.image)
    image_source :=
      some (if jsTrim stop.image ≠ "" ∧ isPlaceholderImage (some (jsTrim stop.image)) = false then
              ImageSource.link_seed
            else ImageSource.placeholder) }

/-- Source: `ensureCanonicalStopForPreset` — look up by deterministic id; if
present refresh city/title/lat/lng and conditionally seed the image, else
insert with image classified placeholder/link_seed. -/
def ensureCanonicalStopForPreset (store : List CanonicalStopRow) (city : String)
    (stop : StopInput) : List CanonicalStopRow × CanonicalStopRow :=
  let id := canonicalIdForPresetStop city stop
  match getCanonicalStopById store id with
  | some existing =>
    let store1 := refreshPresetFields store id city stop.title stop.lat stop.lng
    let refreshed := (getCanonicalStopById store1 id).getD existing
    seedLinkImageIfAllowed store1 refreshed (some stop.image)
  | none =>
    let row := presetInsertRow city stop
    (store ++ [row], row)

/-- Source: `ensureCanonicalStopForCustom` — reuse the nearest same-city row
within the 50 m radius (optionally seeding its image), otherwise fall back to
the deterministic custom id, and insert a fresh row when that id is absent. -/
def ensureCanonicalStopForCustom (cosAvg : ℚ → ℚ) (store : List CanonicalStopRow)
    (city : String) (stop : StopInput) : List CanonicalStopRow × CanonicalStopRow :=
  let stopImage := jsTrim stop.image
  match findNearestCanonicalStop cosAvg store city stop.lat stop.lng with
  | some nearest =>
    let currentSource := nearest.image_source.getD ImageSource.placeholder
    let hasStrongImage : Bool :=
      decide (currentSource = ImageSource.places ∨ currentSource = ImageSource.curated) &&
        !isPlaceholderImage nearest.image_url
    let incomingUseful : Bool := !(stopImage == "") && !isPlaceholderImage (some stopImage)
    let canSeedFromLink : Bool :=
      decide (currentSource = ImageSource.placeholder) || !optTruthy nearest.image_url
    if !hasStrongImage && incomingUseful && canSeedFromLink then
      (updateImageById store nearest.id stopImage,
       { nearest with image_url := some stopImage, image_source := some ImageSource.link_seed })
    else (store, nearest)
  | none =>
    let id := canonicalIdForCustomStop city stop
    match getCanonicalStopById store id with
    | some existingById => seedLinkImageIfAllowed store existingById (some stopImage)
    | none =>
      let row := customInsertRow city stop
      (store ++ [row], row)

/-- Route classification (`RouteKind` in `canonicalStops.ts`). -/
inductive RouteKind where
  | preset
  | custom
deriving DecidableEq, Repr

/-- Mapping row of `route_stop_mappings` (composite key
`route_kind, route_id, stop_id`). -/
structure RouteStopMapping where
  route_kind : RouteKind
  route_id : String
  stop_id : String
  canonical_stop_id : CanonId
  position : ℕ
deriving DecidableEq, Repr

/-- Composite-key match used by the upsert conflict target. -/
def sameMappingKey (m : RouteStopMapping) (kind : RouteKind) (routeId stopId : String) : Bool :=
  decide (m.route_kind = kind ∧ m.route_id = routeId ∧ m.stop_id = stopId)

/-- Source: `upsertRouteStopMapping` — upsert with conflict target
`route_kind,route_id,stop_id`: replace the conflicting row or append. -/
def upsertRouteStopMapping (ms : List RouteStopMapping) (kind : RouteKind)
    (routeId stopId : String) (canonicalStopId : CanonId) (position : ℕ) :
    List RouteStopMapping :=
  let row : RouteStopMapping := ⟨kind, routeId, stopId, canonicalStopId, position⟩
  if ms.any (fun m => sameMappingKey m kind routeId stopId) then
    ms.map (fun m => if sameMappingKey m kind routeId stopId then row else m)
  else ms ++ [row]

/-! Generation switch, normalisation helpers and provider outcomes
(`src/lib/mixGeneration.ts`). -/

/-- Narration persona (`Persona` in `mixGeneration.ts`). -/
inductive Persona where
  | adult
  | preteen
deriving DecidableEq, Repr

/-- String rendering of a persona, used in warning messages. -/
def personaName : Persona → String
  | Persona.adult => "adult"
  | Persona.preteen => "preteen"

/-- Generation mode override (`GenerationMode`). -/
inductive GenerationMode where
  | reuse_existing
  | force_regenerate_all
  | force_regenerate_script
  | force_regenerate_audio
deriving DecidableEq, Repr

/-- Switch configuration; source `getSwitchConfig` reads it once per run.
`replay_audio` models the JSON map `replay_audio[stopId][persona]`. -/
structure GenerationSwitch where
  mode : GenerationMode
  replay_audio : String → Persona → Option String

/-- Source: `toNullableTrimmed` — trim, blank becomes null. -/
def toNullableTrimmed : Option String → Option String
  | none => none
  | some v =>
    let n := jsTrim v
    if n = "" then none else some n

/-- Source: `isUsableGeneratedAudioUrl` — non-blank after trimming and not a
bare static placeholder path under `/audio/`. -/
def isUsableGeneratedAudioUrl (url : Option String) : Bool :=
  match toNullableTrimmed url with
  | none => false
  | some n => !(strStartsWith n "/audio/")

/-- Source: `shouldRegenerateScript`. -/
def shouldRegenerateScript : GenerationMode → Bool
  | GenerationMode.force_regenerate_all => true
  | GenerationMode.force_regenerate_script => true
  | _ => false

/-- Source: `shouldRegenerateAudio`. -/
def shouldRegenerateAudio : GenerationMode → Bool
  | GenerationMode.force_regenerate_all => true
  | GenerationMode.force_regenerate_audio => true
  | _ => false

/-- Outcome of one `generateScriptWithOpenAI` call: the returned text
(possibly blank), or the message of the thrown error. -/
inductive ScriptOutcome where
  | ok (text : String)
  | err (msg : String)
deriving DecidableEq, Repr

/-- Outcome of one `synthesizeSpeechWithOpenAI` + `uploadNarrationAudio`
pair: the uploaded URL (possibly blank), or the message of the thrown
error from either call. -/
inductive AudioOutcome where
  | ok (url : String)
  | err (msg : String)
deriving DecidableEq, Repr

/-! Job records and orchestrator state
(`src/app/api/preset-jobs/create/route.ts`). -/

/-- Job status values accepted by the jobs tables. -/
inductive JobStatus where
  | queued
  | generating_script
  | generating_audio
  | ready
  | ready_with_warnings
  | failed
deriving DecidableEq, Repr

/-- Polled generation-job record (status/progress/message/error columns). -/
structure JobRecord where
  status : JobStatus
  progress : ℕ
  message : String
  error : Option String
deriving DecidableEq, Repr

/-- Status column of `canonical_stop_assets`. -/
inductive AssetStatus where
  | pending
  | generating
  | ready
  | failed
deriving DecidableEq, Repr

/-- Narration asset row of `canonical_stop_assets`, keyed by
`(canonical_stop_id, persona)`. -/
structure AssetRow where
  canonical_stop_id : CanonId
  persona : Persona
  script : Option String
  audio_url : Option String
  status : AssetStatus
  error : Option String
deriving DecidableEq, Repr

/-- Source: `select ... eq(canonical_stop_id).eq(persona).maybeSingle()`. -/
def findAsset (assets : List AssetRow) (cid : CanonId) (persona : Persona) : Option AssetRow :=
  assets.find? (fun a => decide (a.canonical_stop_id = cid ∧ a.persona = persona))

/-- Store effect of the asset upsert with conflict target
`canonical_stop_id,persona`. -/
def upsertAssetRow (assets : List AssetRow) (row : AssetRow) : List AssetRow :=
  if assets.any (fun a =>
      decide (a.canonical_stop_id = row.canonical_stop_id ∧ a.persona = row.persona)) then
    assets.map (fun a =>
      if a.canonical_stop_id = row.canonical_stop_id ∧ a.persona = row.persona then row else a)
  else assets ++ [row]

/-- One job update issued through `updateProgress` or the finalisation /
catch handlers; `events` below records the stream of these updates. -/
structure ProgressEvent where
  status : JobStatus
  message : String
  progress : ℕ
deriving DecidableEq, Repr

/-- Orchestrator state: the relational store (canonical stops, mappings,
assets, the job row), the stream of job updates issued during the run, and
the source function locals (`doneUnits`, `warningCount`, `lastWarning`,
`audioReadyCount`). -/
structure GenSt where
  canon : List CanonicalStopRow
  mappings : List RouteStopMapping
  assets : List AssetRow
  job : JobRecord
  events : List ProgressEvent
  doneUnits : ℕ
  warningCount : ℕ
  lastWarning : String
  audioReadyCount : ℕ
deriving DecidableEq, Repr

/-- Progress formula of `updateProgress`:
`Math.min(99, Math.floor((doneUnits / totalUnits) * 100))`, idealised over
exact arithmetic (`ℕ` floor division; the source computes it through binary
doubles). -/
def progressValue (totalUnits doneUnits : ℕ) : ℕ :=
  min 99 (doneUnits * 100 / totalUnits)

/-- Source: `updateProgress` — overwrite status/message/progress on the job
row (the error column is untouched) and emit the update. -/
def updateProgress (totalUnits : ℕ) (status : JobStatus) (message : String)
    (st : GenSt) : GenSt :=
  let progress := progressValue totalUnits st.doneUnits
  { st with
    job := { st.job with status := status, message := message, progress := progress }
    events := st.events ++ [⟨status, message, progress⟩] }

/-- Per-stop state accumulated by the script phase (`RowState` in the
source). -/
structure RowState where
  stop : StopInput
  canonicalStopId : CanonId
  script : Option String
deriving DecidableEq, Repr

/-- Warning text of a failed script generation call (preset variant). -/
def scriptFailMsg (persona : Persona) (title msg : String) : String :=
  "Script generation failed for " ++ personaName persona ++ " at \"" ++ title ++ "\": " ++ msg

/-- Warning text of a failed synthesis/upload (preset variant). -/
def audioFailMsg (persona : Persona) (title msg : String) : String :=
  "Audio generation failed for " ++ personaName persona ++ " at \"" ++ title ++ "\": " ++ msg

/-- Warning text for audio skipped because no script exists (preset
variant). -/
def audioSkipMsg (persona : Persona) (title : String) : String :=
  "Audio skipped for " ++ personaName persona ++ " at \"" ++ title ++ "\" because script is missing"

/-- Script-phase body of `runPresetGeneration` for one stop (route.ts lines
70–109): resolve the canonical stop, upsert the mapping, reuse a stored
non-blank script unless a script-forcing mode is set, otherwise consult the
generation oracle; persist the asset row; push a progress update.  The
arguments of the external call (length, index, count) are absorbed by the
oracle. -/
def presetScriptStep (cfg : GenerationSwitch) (city routeId : String) (persona : Persona)
    (totalUnits : ℕ) (outcome : ScriptOutcome) (i : ℕ) (stop : StopInput) (st : GenSt) :
    GenSt × RowState :=
  let forceScript := shouldRegenerateScript cfg.mode
  let resolved := ensureCanonicalStopForPreset st.canon city stop
  let canonical := resolved.2
  let mappings1 :=
    upsertRouteStopMapping st.mappings RouteKind.preset routeId stop.id canonical.id i
  let current := findAsset st.assets canonical.id persona
  let script0 : Option String :=
    if forceScript = false then toNullableTrimmed (current.bind (fun a => a.script)) else none
  let attempt : Option String × ℕ × String :=
    match script0 with
    | some s => (some s, st.warningCount, st.lastWarning)
    | none =>
      match outcome with
      | ScriptOutcome.ok text => (toNullableTrimmed (some text), st.warningCount, st.lastWarning)
      | ScriptOutcome.err msg =>
        (none, st.warningCount + 1, scriptFailMsg persona stop.title msg)
  let script := attempt.1
  let wc := attempt.2.1
  let lw := attempt.2.2
  let newRow : AssetRow :=
    { canonical_stop_id := canonical.id, persona := persona, script := script
      audio_url := toNullableTrimmed (current.bind (fun a => a.audio_url))
      status := if script.isSome then AssetStatus.ready else AssetStatus.failed
      error := if script.isSome then none
               else some (if lw = "" then "Script generation failed" else lw) }
  let st1 : GenSt :=
    { st with
      canon := resolved.1, mappings := mappings1
      assets := upsertAssetRow st.assets newRow
      warningCount := wc, lastWarning := lw, doneUnits := st.doneUnits + 1 }
  (updateProgress totalUnits JobStatus.generating_script
      ("Generating scripts (" ++ toString st1.doneUnits ++ "/" ++ toString totalUnits ++ ")") st1,
   ⟨stop, canonical.id, script⟩)

/-- Script phase: iterate `presetScriptStep` over the stop list in order,
collecting the `RowState` list for the audio phase. -/
def presetScriptPhase (cfg : GenerationSwitch) (city routeId : String) (persona : Persona)
    (totalUnits : ℕ) (scriptOracle : ℕ → ScriptOutcome) :
    List StopInput → ℕ → GenSt → GenSt × List RowState
  | [], _, st => (st, [])
  | stop :: rest, i, st =>
    let step := presetScriptStep cfg city routeId persona totalUnits (scriptOracle i) i stop st
    let restRes :=
      presetScriptPhase cfg city routeId persona totalUnits scriptOracle rest (i + 1) step.1
    (restRes.1, step.2 :: restRes.2)

/-- Audio-phase body of `runPresetGeneration` for one stop (route.ts lines
112–155): replay override, otherwise reuse the stored (trimmed) audio URL
unless an audio-forcing mode is set, otherwise synthesise from the freshest
script; count usable audio; persist the asset row; push a progress
update. -/
def presetAudioStep (cfg : GenerationSwitch) (persona : Persona) (totalUnits : ℕ)
    (outcome : AudioOutcome) (state : RowState) (st : GenSt) : GenSt :=
  let forceAudio := shouldRegenerateAudio cfg.mode
  let replayUrl := toNullableTrimmed (cfg.replay_audio state.stop.id persona)
  let current := findAsset st.assets state.canonicalStopId persona
  let currentScript :=
    (toNullableTrimmed (current.bind (fun a => a.script))).orElse (fun _ => state.script)
  let audio0 : Option String :=
    if forceAudio = false then toNullableTrimmed (current.bind (fun a => a.audio_url)) else none
  let audio1 := if replayUrl.isSome then replayUrl else audio0
  let attempt : Option String × ℕ × String :=
    if audio1.isNone ∧ currentScript.isSome then
      match outcome with
      | AudioOutcome.ok url => (toNullableTrimmed (some url), st.warningCount, st.lastWarning)
      | AudioOutcome.err msg =>
        (none, st.warningCount + 1, audioFailMsg persona state.stop.title msg)
    else if audio1.isNone ∧ currentScript.isNone then
      (none, st.warningCount + 1, audioSkipMsg persona state.stop.title)
    else (audio1, st.warningCount, st.lastWarning)
  let audioUrl := attempt.1
  let wc := attempt.2.1
  let lw := attempt.2.2
  let ready :=
    if isUsableGeneratedAudioUrl audioUrl then st.audioReadyCount + 1 else st.audioReadyCount
  let newRow : AssetRow :=
    { canonical_stop_id := state.canonicalStopId, persona := persona, script := currentScript
      audio_url := audioUrl
      status := if audioUrl.isSome then AssetStatus.ready else AssetStatus.failed
      error := if audioUrl.isSome then none
               else some (if lw = "" then "Audio generation failed" else lw) }
  let st1 : GenSt :=
    { st with
      assets := upsertAssetRow st.assets newRow
      warningCount := wc, lastWarning := lw, audioReadyCount := ready
      doneUnits := st.doneUnits + 1 }
  updateProgress totalUnits JobStatus.generating_audio
    ("Generating audio (" ++ toString st1.doneUnits ++ "/" ++ toString totalUnits ++ ")") st1

/-- Audio phase: iterate `presetAudioStep` over the collected row states in
order. -/
def presetAudioPhase (cfg : GenerationSwitch) (persona : Persona) (totalUnits : ℕ)
    (audioOracle : ℕ → AudioOutcome) : List RowState → ℕ → GenSt → GenSt
  | [], _, st => st
  | state :: rest, i, st =>
    presetAudioPhase cfg persona totalUnits audioOracle rest (i + 1)
      (presetAudioStep cfg persona totalUnits (audioOracle i) state st)

/-- Result of a run: the final state and, when the run threw, the thrown
error message. -/
structure RunResult where
  final : GenSt
  thrown : Option String
deriving DecidableEq, Repr

/-- Aggregated warning summary written by the finalisation:
`` `${warningCount} generation warnings. ${lastWarning || ""}`.trim() ``. -/
def presetJobErrorText (wc : ℕ) (lw : String) : String :=
  jsTrim (toString wc ++ " generation warnings. " ++ lw)

/-- Finalisation block of `runPresetGeneration` (route.ts lines 157–177):
zero usable audio throws a hard failure; otherwise `ready_with_warnings`
with the aggregated summary when warnings were counted, else `ready`. -/
def presetFinalize (persona : Persona) (stC : GenSt) : RunResult :=
  if stC.audioReadyCount = 0 then
    { final := stC
      thrown := some (if stC.lastWarning = "" then
          "Audio generation failed for persona " ++ personaName persona ++ "."
        else stC.lastWarning) }
  else if 0 < stC.warningCount then
    { final := { stC with job :=
        { status := JobStatus.ready_with_warnings, progress := 100
          message := "Preset ready with warnings"
          error := some (presetJobErrorText stC.warningCount stC.lastWarning) } }
      thrown := none }
  else
    { final := { stC with job :=
        { status := JobStatus.ready, progress := 100, message := "Preset ready", error := none } }
      thrown := none }

/-- Loop part of `runPresetGeneration`: reset the function locals, push the
initial script-phase update, run the script phase over all stops, push the
audio-phase update, run the audio phase over the collected states. -/
def presetLoopState (cfg : GenerationSwitch) (routeId city : String) (persona : Persona)
    (stops : List StopInput) (scriptOracle : ℕ → ScriptOutcome)
    (audioOracle : ℕ → AudioOutcome) (st0 : GenSt) : GenSt :=
  let totalUnits := max 1 (stops.length * 2)
  let stR : GenSt :=
    { st0 with
      events := [], doneUnits := 0, warningCount := 0, lastWarning := "", audioReadyCount := 0 }
  let stA := updateProgress totalUnits JobStatus.generating_script "Generating scripts" stR
  let phase1 := presetScriptPhase cfg city routeId persona totalUnits scriptOracle stops 0 stA
  let stB := updateProgress totalUnits JobStatus.generating_audio "Generating audio" phase1.1
  presetAudioPhase cfg persona totalUnits audioOracle phase1.2 0 stB

/-- Source: `runPresetGeneration` — the two-phase loop followed by the
finalisation block. -/
def runPresetGeneration (cfg : GenerationSwitch) (routeId city : String) (persona : Persona)
    (stops : List StopInput) (scriptOracle : ℕ → ScriptOutcome)
    (audioOracle : ℕ → AudioOutcome) (st0 : GenSt) : RunResult :=
  presetFinalize persona
    (presetLoopState cfg routeId city persona stops scriptOracle audioOracle st0)

/-- Source: the `.catch` handler of the POST route (lines 241–251) — a thrown
run marks the job `failed` with `progress = 100`, message
`Generation failed` and the thrown message as `error`. -/
def runPresetJob (cfg : GenerationSwitch) (routeId city : String) (persona : Persona)
    (stops : List StopInput) (scriptOracle : ℕ → ScriptOutcome)
    (audioOracle : ℕ → AudioOutcome) (st0 : GenSt) : GenSt :=
  let r := runPresetGeneration cfg routeId city persona stops scriptOracle audioOracle st0
  match r.thrown with
  | none => r.final
  | some msg =>
    { r.final with job :=
        { status := JobStatus.failed, progress := 100, message := "Generation failed"
          error := some msg } }

/-- Audio-URL decision chain of the first `runGeneration` variant of
`src/app/api/mix-jobs/create/route.ts` (lines 152–188): replay override,
else reuse the stored per-route URL only when it passes
`isUsableGeneratedAudioUrl`, else reuse a cached usable URL from another
route, else synthesise from the script; the result is normalised at the
end.  Inputs are the raw column values; the oracle absorbs the
synthesise/upload pair. -/
def mixAudioUrlDecision (forceAudio : Bool)
    (replayRaw existingRaw reusableRaw textRaw : Option String)
    (synthOutcome : AudioOutcome) : Option String :=
  let replayUrl := toNullableTrimmed replayRaw
  let existingAudio := toNullableTrimmed existingRaw
  let reusableAudio := toNullableTrimmed reusableRaw
  let text := toNullableTrimmed textRaw
  let audioUrl : Option String :=
    if replayUrl.isSome then replayUrl
    else if forceAudio = false ∧ isUsableGeneratedAudioUrl existingAudio then existingAudio
    else if forceAudio = false ∧ reusableAudio.isSome then reusableAudio
    else if text.isSome then
      match synthOutcome with
      | AudioOutcome.ok url => toNullableTrimmed (some url)
      | AudioOutcome.err _ => none
    else none
  toNullableTrimmed audioUrl

/-! Sequences of resolver calls, the separation invariant, and the mapping
effect of a repeated mix creation request. -/

/-- Fold a list of user-path resolutions (city, stop) through the store. -/
def resolveUserStops (cosAvg : ℚ → ℚ) :
    List (String × StopInput) → List CanonicalStopRow → List CanonicalStopRow
  | [], store => store
  | (city, stop) :: rest, store =>
    resolveUserStops cosAvg rest (ensureCanonicalStopForCustom cosAvg store city stop).1

/-- Separation property of the spec: within a city, no two distinct canonical
stops lie within the (squared) 50 m match radius of each other. -/
def canonicalSeparationInvariant (cosAvg : ℚ → ℚ) (store : List CanonicalStopRow) : Prop :=
  ∀ r1 ∈ store, ∀ r2 ∈ store, r1.city = r2.city → r1.id ≠ r2.id →
    CANONICAL_MATCH_RADIUS_METERS ^ 2 < distanceMetersSq cosAvg r1.lat r1.lng r2.lat r2.lng

instance (cosAvg : ℚ → ℚ) (store : List CanonicalStopRow) :
    Decidable (canonicalSeparationInvariant cosAvg store) := by
  unfold canonicalSeparationInvariant
  infer_instance

/-- Store effect of the mix-jobs POST handler lines 592–599:
`route_stop_mappings.delete().eq("route_kind","custom").eq("route_id", routeId)`. -/
def deleteCustomMappingsForRoute (ms : List RouteStopMapping) (routeId : String) :
    List RouteStopMapping :=
  ms.filter (fun m =>
    !(decide (m.route_kind = RouteKind.custom) && decide (m.route_id = routeId)))

/-- Mapping effect of the per-stop loop of the second `runGeneration` variant
(lines 379–383): resolve each stop through the user path and upsert its
mapping at its position. -/
def remapStopsForCustomRoute (cosAvg : ℚ → ℚ) (routeId city : String) :
    List StopInput → ℕ → List CanonicalStopRow → List RouteStopMapping →
    List CanonicalStopRow × List RouteStopMapping
  | [], _, canon, ms => (canon, ms)
  | stop :: rest, i, canon, ms =>
    let res := ensureCanonicalStopForCustom cosAvg canon city stop
    remapStopsForCustomRoute cosAvg routeId city rest (i + 1) res.1
      (upsertRouteStopMapping ms RouteKind.custom routeId stop.id res.2.id i)

/-- Combined mapping effect of a repeated mix creation request for an
existing route: clear the route's previous custom mappings (POST lines
592–599), then re-resolve and upsert a mapping for every stop of the new
request. -/
def mixJobsRecreateMappings (cosAvg : ℚ → ℚ) (routeId city : String)
    (stops : List StopInput) (canon : List CanonicalStopRow) (ms : List RouteStopMapping) :
    List CanonicalStopRow × List RouteStopMapping :=
  remapStopsForCustomRoute cosAvg routeId city stops 0 canon
    (deleteCustomMappingsForRoute ms routeId)

/-- Done-unit counts at which `updateProgress` is called across a preset run
with `n` stops: the script-phase start at 0, after each of the `n` script
units (1..n), the audio-phase start (n again), and after each of the `n`
audio units (n+1..2n). -/
def presetProgressIndexList (n : ℕ) : List ℕ :=
  List.range (n + 1) ++ (List.range (n + 1)).map (fun k => n + k)

/-- Progress values reported across one preset run with `n` stops, per the
spec formula: `floor(doneUnits / totalUnits * 100)` capped at 99 with
`totalUnits = 2` units per stop. -/
def expectedPresetProgressList (n : ℕ) : List ℕ :=
  (presetProgressIndexList n).map (progressValue (n * 2))

/-- Constant stand-in for the abstracted cosine, used by concrete instances. -/
def cosFlat : ℚ → ℚ := fun _ => 1

/-- Concrete canonical row with an authoritative Places image source and no
stored image URL. -/
def samplePlacesRow : CanonicalStopRow :=
  { id := CanonId.preset "salem" "p1", city := "salem", title := "T", lat := 0, lng := 0
    image_url := none, image_source := some ImageSource.places }

/-- Concrete canonical row with an authoritative Places image source and a
stored non-empty image URL. -/
def samplePlacesRowWithUrl : CanonicalStopRow :=
  { id := CanonId.preset "salem" "p2", city := "salem", title := "T", lat := 0, lng := 0
    image_url := some "http://img.example/keep.jpg", image_source := some ImageSource.places }

/-- Concrete user stop carrying a non-placeholder candidate image. -/
def sampleUserStop : StopInput :=
  { id := "u1", title := "T", lat := 0, lng := 0, image := "http://img.example/x.jpg" }

/-- Empty queued job record for concrete runs. -/
def emptyJob : JobRecord := ⟨JobStatus.queued, 0, "Queued", none⟩

/-- Orchestrator state fixture with the given asset rows and empty stores. -/
def genStWith (assets : List AssetRow) : GenSt :=
  ⟨[], [], assets, emptyJob, [], 0, 0, "", 0⟩

/-- Switch fixture: reuse mode, no replay overrides. -/
def reuseCfg : GenerationSwitch := ⟨GenerationMode.reuse_existing, fun _ _ => none⟩

/-- Switch fixture: force script regeneration, no replay overrides. -/
def forceScriptCfg : GenerationSwitch := ⟨GenerationMode.force_regenerate_script, fun _ _ => none⟩

/-- Stop fixture. -/
def stopA : StopInput := ⟨"a", "Stop A", 0, 0, ""⟩

/-- Asset fixture: stored non-blank script, no audio. -/
def assetScriptHello : AssetRow :=
  ⟨CanonId.preset "salem" "a", Persona.adult, some "hello", none, AssetStatus.ready, none⟩

/-- Asset fixture: stored script and a bare static placeholder audio path. -/
def assetPlaceholderAudio : AssetRow :=
  ⟨CanonId.preset "salem" "a", Persona.adult, some "hello", some "/audio/a.mp3", AssetStatus.ready, none⟩

/-- Row-state fixture matching `stopA` and `assetPlaceholderAudio`. -/
def rowStateA : RowState := ⟨stopA, CanonId.preset "salem" "a", some "hello"⟩

/-- Switch fixture: reuse mode with a replay override for stop `"a"` /
persona `adult` carrying surrounding whitespace. -/
def replayCfg : GenerationSwitch :=
  ⟨GenerationMode.reuse_existing, fun sid p =>
    if sid = "a" ∧ p = Persona.adult then some " https://replay.example/a.mp3 " else none⟩

/-! Helper lemmas about the nearest-row scan. -/

theorem nearestScan_go_spec (cosAvg : ℚ → ℚ) (lat lng : ℚ) :
    ∀ (rows : List CanonicalStopRow) (b0 : CanonicalStopRow) (d0 : ℚ),
      ∃ b bd,
        List.foldl (nearestStep cosAvg lat lng) (some (b0, d0)) rows = some (b, bd) ∧
          bd ≤ d0 ∧
          (b = b0 ∨ b ∈ rows) ∧
          ∀ r ∈ rows, bd ≤ distanceMetersSq cosAvg lat lng r.lat r.lng := by
  intro rows
  induction rows with
  | nil =>
    intro b0 d0
    exact ⟨b0, d0, rfl, le_refl _, Or.inl rfl, by simp⟩
  | cons row rest ih =>
    intro b0 d0
    by_cases hlt : distanceMetersSq cosAvg lat lng row.lat row.lng < d0
    · obtain ⟨b, bd, heq, hle, hor, hall⟩ :=
        ih row (distanceMetersSq cosAvg lat lng row.lat row.lng)
      refine ⟨b, bd, ?_, ?_, ?_, ?_⟩
      · rw [List.foldl_cons]
        rw [show nearestStep cosAvg lat lng (some (b0, d0)) row
            = some (row, distanceMetersSq cosAvg lat lng row.lat row.lng) by
          simp [nearestStep, hlt]]
        exact heq
      · exact le_trans hle (le_of_lt hlt)
      · rcases hor with hb | hmem
        · exact Or.inr (by simp [hb])
        · exact Or.inr (List.mem_cons_of_mem _ hmem)
      · intro r hr
        rcases List.mem_cons.mp hr with rfl | hr
        · exact hle
        · exact hall r hr
    · obtain ⟨b, bd, heq, hle, hor, hall⟩ := ih b0 d0
      refine ⟨b, bd, ?_, hle, ?_, ?_⟩
      · rw [List.foldl_cons]
        rw [show nearestStep cosAvg lat lng (some (b0, d0)) row = some (b0, d0) by
          simp [nearestStep, hlt]]
        exact heq
      · rcases hor with hb | hmem
        · exact Or.inl hb
        · exact Or.inr (List.mem_cons_of_mem _ hmem)
      · intro r hr
        rcases List.mem_cons.mp hr with rfl | hr
        · exact le_trans hle (not_lt.mp hlt)
        · exact hall r hr

theorem nearestScan_eq_none_iff (cosAvg : ℚ → ℚ) (lat lng : ℚ)
    (rows : List CanonicalStopRow) :
    nearestScan cosAvg lat lng rows = none ↔ rows = [] := by
  cases rows with
  | nil => simp [nearestScan]
  | cons row rest =>
    simp only [nearestScan, List.foldl_cons]
    rw [show nearestStep cosAvg lat lng none row
        = some (row, distanceMetersSq cosAvg lat lng row.lat row.lng) from rfl]
    obtain ⟨b, bd, heq, -, -, -⟩ :=
      nearestScan_go_spec cosAvg lat lng rest row
        (distanceMetersSq cosAvg lat lng row.lat row.lng)
    rw [heq]
    simp

theorem nearestScan_spec (cosAvg : ℚ → ℚ) (lat lng : ℚ) (rows : List CanonicalStopRow)
    (b : CanonicalStopRow) (bd : ℚ)
    (h : nearestScan cosAvg lat lng rows = some (b, bd)) :
    b ∈ rows ∧ ∀ r ∈ rows, bd ≤ distanceMetersSq cosAvg lat lng r.lat r.lng := by
  cases rows with
  | nil => simp [nearestScan] at h
  | cons row rest =>
    rw [nearestScan, List.foldl_cons,
      show nearestStep cosAvg lat lng none row
        = some (row, distanceMetersSq cosAvg lat lng row.lat row.lng) from rfl] at h
    obtain ⟨c, cd, heq, hle, hor, hall⟩ :=
      nearestScan_go_spec cosAvg lat lng rest row
        (distanceMetersSq cosAvg lat lng row.lat row.lng)
    rw [heq] at h
    obtain ⟨rfl, rfl⟩ : c = b ∧ cd = bd := by
      constructor <;> [exact congrArg Prod.fst (Option.some.inj h);
        exact congrArg Prod.snd (Option.some.inj h)]
    constructor
    · rcases hor with rfl | hmem
      · exact List.mem_cons_self _ _
      · exact List.mem_cons_of_mem _ hmem
    · intro r hr
      rcases List.mem_cons.mp hr with rfl | hr
      · exact hle
      · exact hall r hr

theorem findNearestCanonicalStop_none_far (cosAvg : ℚ → ℚ)
    (store : List CanonicalStopRow) (city : String) (lat lng : ℚ)
    (h : findNearestCanonicalStop cosAvg store city lat lng = none) :
    ∀ r ∈ store, r.city = city →
      CANONICAL_MATCH_RADIUS_METERS ^ 2 < distanceMetersSq cosAvg lat lng r.lat r.lng := by
  intro r hr hcity
  have hrf : r ∈ store.filter (fun s => decide (s.city = city)) :=
    List.mem_filter.mpr ⟨hr, by simp [hcity]⟩
  cases hscan : nearestScan cosAvg lat lng (store.filter fun s => decide (s.city = city)) with
  | none =>
    rw [(nearestScan_eq_none_iff cosAvg lat lng _).mp hscan] at hrf
    simp at hrf
  | some pair =>
    obtain ⟨b, bd⟩ := pair
    rw [findNearestCanonicalStop, hscan] at h
    dsimp only at h
    by_cases hgt : bd > CANONICAL_MATCH_RADIUS_METERS ^ 2
    · have hall := (nearestScan_spec cosAvg lat lng _ b bd hscan).2 r hrf
      exact lt_of_lt_of_le hgt hall
    · rw [if_neg hgt] at h
      exact absurd h (by simp)

theorem findNearestCanonicalStop_some_spec (cosAvg : ℚ → ℚ)
    (store : List CanonicalStopRow) (city : String) (lat lng : ℚ) (b : CanonicalStopRow)
    (h : findNearestCanonicalStop cosAvg store city lat lng = some b) :
    b ∈ store ∧ b.city = city := by
  cases hscan : nearestScan cosAvg lat lng (store.filter fun s => decide (s.city = city)) with
  | none => rw [findNearestCanonicalStop, hscan] at h; exact absurd h (by simp)
  | some pair =>
    obtain ⟨c, cd⟩ := pair
    rw [findNearestCanonicalStop, hscan] at h
    dsimp only at h
    by_cases hgt : cd > CANONICAL_MATCH_RADIUS_METERS ^ 2
    · rw [if_pos hgt] at h; exact absurd h (by simp)
    · rw [if_neg hgt] at h
      have hc : c = b := Option.some.inj h
      subst hc
      have hmem := (nearestScan_spec cosAvg lat lng _ c cd hscan).1
      have := List.mem_filter.mp hmem
      exact ⟨this.1, by simpa using this.2⟩

/-! Helper lemmas about distances, lookups and image updates. -/

theorem distanceMetersSq_symm (cosAvg : ℚ → ℚ) (aLat aLng bLat bLng : ℚ) :
    distanceMetersSq cosAvg aLat aLng bLat bLng =
      distanceMetersSq cosAvg bLat bLng aLat aLng := by
  simp only [distanceMetersSq]
  rw [show bLat + aLat = aLat + bLat from add_comm _ _]
  ring

theorem getCanonicalStopById_some_spec (store : List CanonicalStopRow) (id : CanonId)
    (r : CanonicalStopRow) (h : getCanonicalStopById store id = some r) :
    r ∈ store ∧ r.id = id := by
  have h0 : store.find? (fun s => decide (s.id = id)) = some r := h
  have h1 := List.find?_some h0
  have h2 := List.mem_of_find?_eq_some h0
  exact ⟨h2, of_decide_eq_true h1⟩

theorem getCanonicalStopById_none_spec (store : List CanonicalStopRow) (id : CanonId)
    (h : getCanonicalStopById store id = none) : ∀ r ∈ store, r.id ≠ id := by
  intro r hr
  have := List.find?_eq_none.mp h r hr
  simpa using this

theorem getCanonicalStopById_map (f : CanonicalStopRow → CanonicalStopRow)
    (hf : ∀ r, (f r).id = r.id) (store : List CanonicalStopRow) (id : CanonId) :
    getCanonicalStopById (store.map f) id = (getCanonicalStopById store id).map f := by
  induction store with
  | nil => rfl
  | cons r rest ih =>
    by_cases hid : r.id = id
    · simp [getCanonicalStopById, List.find?, hf, hid]
    · simp only [getCanonicalStopById, List.map_cons, List.find?] at ih ⊢
      rw [show (decide ((f r).id = id)) = false by simp [hf, hid],
        show (decide (r.id = id)) = false by simp [hid]]
      exact ih

theorem nodup_ids_unique (store : List CanonicalStopRow)
    (hnodup : (store.map (fun r => r.id)).Nodup) (r s : CanonicalStopRow)
    (hr : r ∈ store) (hs : s ∈ store) (hid : r.id = s.id) : r = s :=
  List.inj_on_of_nodup_map hnodup hr hs hid

theorem updateImageById_keeps_position (r : CanonicalStopRow) (id : CanonId) (url : String) :
    ((if r.id = id then
        { r with image_url := some url, image_source := some ImageSource.link_seed }
      else r) : CanonicalStopRow).id = r.id ∧
    ((if r.id = id then
        { r with image_url := some url, image_source := some ImageSource.link_seed }
      else r) : CanonicalStopRow).city = r.city ∧
    ((if r.id = id then
        { r with image_url := some url, image_source := some ImageSource.link_seed }
      else r) : CanonicalStopRow).title = r.title ∧
    ((if r.id = id then
        { r with image_url := some url, image_source := some ImageSource.link_seed }
      else r) : CanonicalStopRow).lat = r.lat ∧
    ((if r.id = id then
        { r with image_url := some url, image_source := some ImageSource.link_seed }
      else r) : CanonicalStopRow).lng = r.lng := by
  split <;> simp

theorem canonicalSeparationInvariant_map (cosAvg : ℚ → ℚ)
    (f : CanonicalStopRow → CanonicalStopRow) (store : List CanonicalStopRow)
    (hf : ∀ r, (f r).id = r.id ∧ (f r).city = r.city ∧ (f r).lat = r.lat ∧ (f r).lng = r.lng)
    (h : canonicalSeparationInvariant cosAvg store) :
    canonicalSeparationInvariant cosAvg (store.map f) := by
  intro r1 h1 r2 h2 hcity hid
  obtain ⟨s1, hs1, rfl⟩ := List.mem_map.mp h1
  obtain ⟨s2, hs2, rfl⟩ := List.mem_map.mp h2
  obtain ⟨e1i, e1c, e1la, e1ln⟩ := hf s1
  obtain ⟨e2i, e2c, e2la, e2ln⟩ := hf s2
  rw [e1la, e1ln, e2la, e2ln]
  refine h s1 hs1 s2 hs2 ?_ ?_
  · rw [← e1c, ← e2c]; exact hcity
  · rw [← e1i, ← e2i]; exact hid

theorem updateImageById_sep (cosAvg : ℚ → ℚ) (store : List CanonicalStopRow)
    (id : CanonId) (url : String) (h : canonicalSeparationInvariant cosAvg store) :
    canonicalSeparationInvariant cosAvg (updateImageById store id url) :=
  canonicalSeparationInvariant_map cosAvg _ store
    (fun r => by
      refine ⟨?_, ?_, ?_, ?_⟩ <;> · split <;> simp)
    h

theorem seedLinkImageIfAllowed_fst_cases (store : List CanonicalStopRow)
    (row : CanonicalStopRow) (imageUrl : Option String) :
    (seedLinkImageIfAllowed store row imageUrl).1 = store ∨
      (seedLinkImageIfAllowed store row imageUrl).1 =
        updateImageById store row.id (jsTrim (imageUrl.getD "")) := by
  rw [seedLinkImageIfAllowed]
  split
  · exact Or.inl rfl
  · split
    · exact Or.inl rfl
    · split
      · exact Or.inl rfl
      · exact Or.inr rfl

theorem seedLinkImageIfAllowed_fst_of_strong (store : List CanonicalStopRow)
    (row : CanonicalStopRow) (imageUrl : Option String)
    (h : isStrongImageSource row.image_source = true) :
    (seedLinkImageIfAllowed store row imageUrl).1 = store := by
  rw [seedLinkImageIfAllowed]
  split
  · rfl
  · simp [h]

theorem seedLinkImageIfAllowed_snd_id (store : List CanonicalStopRow)
    (row : CanonicalStopRow) (imageUrl : Option String) :
    (seedLinkImageIfAllowed store row imageUrl).2.id = row.id := by
  rw [seedLinkImageIfAllowed]
  split
  · rfl
  · split
    · rfl
    · split
      · rfl
      · rfl

theorem ensureCanonicalStopForCustom_sep (cosAvg : ℚ → ℚ) (store : List CanonicalStopRow)
    (city : String) (stop : StopInput) (h : canonicalSeparationInvariant cosAvg store) :
    canonicalSeparationInvariant cosAvg (ensureCanonicalStopForCustom cosAvg store city stop).1 := by
  cases hn : findNearestCanonicalStop cosAvg store city stop.lat stop.lng with
  | some nearest =>
    simp only [ensureCanonicalStopForCustom, hn]
    split
    · exact updateImageById_sep cosAvg store nearest.id (jsTrim stop.image) h
    · exact h
  | none =>
    simp only [ensureCanonicalStopForCustom, hn]
    cases hid : getCanonicalStopById store (canonicalIdForCustomStop city stop) with
    | some ex =>
      simp only [hid]
      rcases seedLinkImageIfAllowed_fst_cases store ex (some (jsTrim stop.image)) with he | he <;>
        rw [he]
      · exact h
      · exact updateImageById_sep cosAvg store ex.id _ h
    | none =>
      simp only [hid]
      intro r1 h1 r2 h2 hcity hids
      rcases List.mem_append.mp h1 with h1s | h1n
      · rcases List.mem_append.mp h2 with h2s | h2n
        · exact h r1 h1s r2 h2s hcity hids
        · have hr2 : r2 = customInsertRow city stop := List.mem_singleton.mp h2n
          subst hr2
          have hfar := findNearestCanonicalStop_none_far cosAvg store city stop.lat stop.lng hn
            r1 h1s (by simpa [customInsertRow] using hcity)
          rw [show (customInsertRow city stop).lat = stop.lat from rfl,
            show (customInsertRow city stop).lng = stop.lng from rfl,
            distanceMetersSq_symm]
          exact hfar
      · have hr1 : r1 = customInsertRow city stop := List.mem_singleton.mp h1n
        subst hr1
        rcases List.mem_append.mp h2 with h2s | h2n
        · have hfar := findNearestCanonicalStop_none_far cosAvg store city stop.lat stop.lng hn
            r2 h2s (by simpa [customInsertRow] using hcity.symm)
          rw [show (customInsertRow city stop).lat = stop.lat from rfl,
            show (customInsertRow city stop).lng = stop.lng from rfl]
          exact hfar
        · have hr2 : r2 = customInsertRow city stop := List.mem_singleton.mp h2n
          subst hr2
          exact absurd rfl hids

theorem upsertRouteStopMapping_mem_of_ne_key (ms : List RouteStopMapping)
    (kind : RouteKind) (routeId stopId : String) (cid : CanonId) (pos : ℕ)
    (m : RouteStopMapping) (hm : m ∈ ms)
    (hk : sameMappingKey m kind routeId stopId = false) :
    m ∈ upsertRouteStopMapping ms kind routeId stopId cid pos := by
  rw [upsertRouteStopMapping]
  split
  · have : (fun x => if sameMappingKey x kind routeId stopId = true then
        (⟨kind, routeId, stopId, cid, pos⟩ : RouteStopMapping) else x) m = m := by
      simp [hk]
    exact this ▸ List.mem_map_of_mem _ hm
  · exact List.mem_append_left _ hm

theorem upsertRouteStopMapping_mem_cases (ms : List RouteStopMapping)
    (kind : RouteKind) (routeId stopId : String) (cid : CanonId) (pos : ℕ)
    (m : RouteStopMapping) (hm : m ∈ upsertRouteStopMapping ms kind routeId stopId cid pos) :
    m ∈ ms ∨ m = ⟨kind, routeId, stopId, cid, pos⟩ := by
  rw [upsertRouteStopMapping] at hm
  split at hm
  · obtain ⟨x, hx, he⟩ := List.mem_map.mp hm
    by_cases hxk : sameMappingKey x kind routeId stopId = true
    · rw [if_pos hxk] at he; exact Or.inr he.symm
    · rw [if_neg hxk] at he; exact Or.inl (he ▸ hx)
  · rcases List.mem_append.mp hm with hx | hx
    · exact Or.inl hx
    · exact Or.inr (List.mem_singleton.mp hx)

theorem remapStops_preserves_other_routes (cosAvg : ℚ → ℚ) (routeId city : String) :
    ∀ (stops : List StopInput) (i : ℕ) (canon : List CanonicalStopRow)
      (ms : List RouteStopMapping) (m : RouteStopMapping), m ∈ ms →
      ¬(m.route_kind = RouteKind.custom ∧ m.route_id = routeId) →
      m ∈ (remapStopsForCustomRoute cosAvg routeId city stops i canon ms).2 := by
  intro stops
  induction stops with
  | nil => intro i canon ms m hm _; exact hm
  | cons stop rest ih =>
    intro i canon ms m hm hkey
    refine ih (i + 1) _ _ m ?_ hkey
    refine upsertRouteStopMapping_mem_of_ne_key _ _ _ _ _ _ m hm ?_
    simp only [sameMappingKey, decide_eq_false_iff_not]
    intro hc
    exact hkey ⟨hc.1, hc.2.1⟩

theorem remapStops_only_request_stops (cosAvg : ℚ → ℚ) (routeId city : String)
    (ids : List String) :
    ∀ (stops : List StopInput) (i : ℕ) (canon : List CanonicalStopRow)
      (ms : List RouteStopMapping),
      (∀ m ∈ ms, m.route_kind = RouteKind.custom → m.route_id = routeId →
        m.stop_id ∈ ids) →
      (∀ stop ∈ stops, stop.id ∈ ids) →
      ∀ m ∈ (remapStopsForCustomRoute cosAvg routeId city stops i canon ms).2,
        m.route_kind = RouteKind.custom → m.route_id = routeId → m.stop_id ∈ ids := by
  intro stops
  induction stops with
  | nil => intro i canon ms hms _ m hm; exact hms m hm
  | cons stop rest ih =>
    intro i canon ms hms hstops m hm
    refine ih (i + 1) _ _ ?_ (fun x hx => hstops x (List.mem_cons_of_mem _ hx)) m hm
    intro x hx hxk hxr
    rcases upsertRouteStopMapping_mem_cases _ _ _ _ _ _ x hx with hx0 | rfl
    · exact hms x hx0 hxk hxr
    · exact hstops stop (List.mem_cons_self _ _)

theorem isStrongImageSource_cases (o : Option ImageSource)
    (h : isStrongImageSource o = true) :
    o = some ImageSource.places ∨ o = some ImageSource.curated := by
  cases o with
  | none => simp [isStrongImageSource] at h
  | some v => cases v <;> simp_all [isStrongImageSource]

theorem mem_map_id_preserving (store : List CanonicalStopRow)
    (f : CanonicalStopRow → CanonicalStopRow) (hf : ∀ x, (f x).id = x.id)
    (hnodup : (store.map (fun s => s.id)).Nodup) (r : CanonicalStopRow) (hr : r ∈ store)
    (r1 : CanonicalStopRow) (h1 : r1 ∈ store.map f) (hid : r1.id = r.id) :
    r1 = f r := by
  obtain ⟨s0, hs0, rfl⟩ := List.mem_map.mp h1
  have hs : s0 = r := nodup_ids_unique store hnodup s0 r hs0 hr (by rw [← hf s0]; exact hid)
  rw [hs]

theorem ensurePreset_strong_image_frozen (store : List CanonicalStopRow) (city : String)
    (stop : StopInput) (r : CanonicalStopRow)
    (hnodup : (store.map (fun s => s.id)).Nodup) (hr : r ∈ store)
    (hstrong : isStrongImageSource r.image_source = true) :
    ∀ r1 ∈ (ensureCanonicalStopForPreset store city stop).1, r1.id = r.id →
      r1.image_url = r.image_url ∧ r1.image_source = r.image_source := by
  intro r1 h1 hid1
  cases hid : getCanonicalStopById store (canonicalIdForPresetStop city stop) with
  | none =>
    simp only [ensureCanonicalStopForPreset, hid] at h1
    rcases List.mem_append.mp h1 with h1s | h1n
    · rw [nodup_ids_unique store hnodup r1 r h1s hr hid1]
      exact ⟨rfl, rfl⟩
    · have h1r : r1 = presetInsertRow city stop := List.mem_singleton.mp h1n
      have hne : r.id ≠ canonicalIdForPresetStop city stop :=
        getCanonicalStopById_none_spec store _ hid r hr
      rw [h1r] at hid1
      exact absurd (hid1.symm.trans rfl) hne
  | some ex =>
    obtain ⟨hexmem, hexid⟩ := getCanonicalStopById_some_spec store _ ex hid
    simp only [ensureCanonicalStopForPreset, hid] at h1
    have hfid : ∀ x : CanonicalStopRow,
        ((if x.id = canonicalIdForPresetStop city stop then
            { x with city := city, title := stop.title, lat := stop.lat, lng := stop.lng }
          else x) : CanonicalStopRow).id = x.id := by
      intro x; split <;> rfl
    have hmap : getCanonicalStopById
        (refreshPresetFields store (canonicalIdForPresetStop city stop) city stop.title
          stop.lat stop.lng) (canonicalIdForPresetStop city stop) =
        some (if ex.id = canonicalIdForPresetStop city stop then
            { ex with city := city, title := stop.title, lat := stop.lat, lng := stop.lng }
          else ex) := by
      rw [refreshPresetFields, getCanonicalStopById_map _ hfid store _, hid]
      rfl
    rw [hmap] at h1
    simp only [Option.getD_some] at h1
    by_cases hcase : r.id = canonicalIdForPresetStop city stop
    · have hexr : ex = r :=
        nodup_ids_unique store hnodup ex r hexmem hr (hexid.trans hcase.symm)
      subst hexr
      rw [if_pos hexid] at h1
      have hstrongRef : isStrongImageSource ({ ex with city := city, title := stop.title, lat := stop.lat, lng := stop.lng } : CanonicalStopRow).image_source = true := hstrong
      rw [seedLinkImageIfAllowed_fst_of_strong _ _ _ hstrongRef] at h1
      rw [refreshPresetFields] at h1
      have h1e := mem_map_id_preserving store _ hfid hnodup ex hr r1 h1 hid1
      rw [h1e, if_pos hexid]
      exact ⟨rfl, rfl⟩
    · rcases seedLinkImageIfAllowed_fst_cases
          (refreshPresetFields store (canonicalIdForPresetStop city stop) city stop.title
            stop.lat stop.lng)
          (if ex.id = canonicalIdForPresetStop city stop then
            { ex with city := city, title := stop.title, lat := stop.lat, lng := stop.lng }
          else ex) (some stop.image) with he | he <;> rw [he] at h1
      · rw [refreshPresetFields] at h1
        have h1e := mem_map_id_preserving store _ hfid hnodup r hr r1 h1 hid1
        rw [h1e, if_neg hcase]
        exact ⟨rfl, rfl⟩
      · have hrid : ((if ex.id = canonicalIdForPresetStop city stop then ({ ex with city := city, title := stop.title, lat := stop.lat, lng := stop.lng } : CanonicalStopRow) else ex)).id = canonicalIdForPresetStop city stop := (hfid ex).trans hexid
        rw [hrid, updateImageById, refreshPresetFields, List.map_map] at h1
        have hgid : ∀ x : CanonicalStopRow,
            (((fun y : CanonicalStopRow =>
                if y.id = canonicalIdForPresetStop city stop then
                  { y with image_url := some (jsTrim ((some stop.image).getD "")), image_source := some ImageSource.link_seed }
                else y) ∘ (fun y : CanonicalStopRow =>
                if y.id = canonicalIdForPresetStop city stop then
                  { y with city := city, title := stop.title, lat := stop.lat, lng := stop.lng }
                else y)) x).id = x.id := by
          intro x
          by_cases hx : x.id = canonicalIdForPresetStop city stop <;>
            simp [Function.comp_apply, hx]
        have h1e := mem_map_id_preserving store _ hgid hnodup r hr r1 h1 hid1
        rw [h1e]
        simp [Function.comp_apply, hcase]

theorem ensureCustom_strong_image_frozen (cosAvg : ℚ → ℚ)
    (store : List CanonicalStopRow) (city : String) (stop : StopInput) (r : CanonicalStopRow)
    (hnodup : (store.map (fun s => s.id)).Nodup) (hr : r ∈ store)
    (hstrong : isStrongImageSource r.image_source = true)
    (hurl : optTruthy r.image_url = true) :
    ∀ r1 ∈ (ensureCanonicalStopForCustom cosAvg store city stop).1, r1.id = r.id →
      r1.image_url = r.image_url ∧ r1.image_source = r.image_source := by
  intro r1 h1 hid1
  cases hn : findNearestCanonicalStop cosAvg store city stop.lat stop.lng with
  | some nearest =>
    obtain ⟨hnmem, hncity⟩ := findNearestCanonicalStop_some_spec cosAvg store city _ _ _ hn
    simp only [ensureCanonicalStopForCustom, hn] at h1
    by_cases hnr : nearest.id = r.id
    · have hne : nearest = r := nodup_ids_unique store hnodup nearest r hnmem hr hnr
      subst hne
      rcases isStrongImageSource_cases _ hstrong with hsrc | hsrc <;>
        simp only [hsrc, Option.getD_some, hurl] at h1 <;>
        simp at h1 <;>
        rw [nodup_ids_unique store hnodup r1 nearest h1 hr hid1] <;>
        exact ⟨rfl, rfl⟩
    · split at h1
      · have hgid : ∀ x : CanonicalStopRow,
            ((if x.id = nearest.id then
                { x with image_url := some (jsTrim stop.image), image_source := some ImageSource.link_seed }
              else x) : CanonicalStopRow).id = x.id := by
          intro x; split <;> rfl
        rw [updateImageById] at h1
        have h1e := mem_map_id_preserving store _ hgid hnodup r hr r1 h1 hid1
        rw [h1e, if_neg (fun hc => hnr hc.symm)]
        exact ⟨rfl, rfl⟩
      · rw [nodup_ids_unique store hnodup r1 r h1 hr hid1]
        exact ⟨rfl, rfl⟩
  | none =>
    simp only [ensureCanonicalStopForCustom, hn] at h1
    cases hid : getCanonicalStopById store (canonicalIdForCustomStop city stop) with
    | some ex =>
      obtain ⟨hexmem, hexid⟩ := getCanonicalStopById_some_spec store _ ex hid
      rw [hid] at h1
      by_cases hcase : ex.id = r.id
      · have hexr : ex = r := nodup_ids_unique store hnodup ex r hexmem hr hcase
        subst hexr
        rw [seedLinkImageIfAllowed_fst_of_strong _ _ _ hstrong] at h1
        rw [nodup_ids_unique store hnodup r1 ex h1 hr hid1]
        exact ⟨rfl, rfl⟩
      · rcases seedLinkImageIfAllowed_fst_cases store ex (some (jsTrim stop.image)) with he | he <;>
          rw [he] at h1
        · rw [nodup_ids_unique store hnodup r1 r h1 hr hid1]
          exact ⟨rfl, rfl⟩
        · have hgid : ∀ x : CanonicalStopRow,
              ((if x.id = ex.id then
                  { x with image_url := some (jsTrim ((some (jsTrim stop.image)).getD "")), image_source := some ImageSource.link_seed }
                else x) : CanonicalStopRow).id = x.id := by
            intro x; split <;> rfl
          rw [updateImageById] at h1
          have h1e := mem_map_id_preserving store _ hgid hnodup r hr r1 h1 hid1
          rw [h1e, if_neg (fun hc => hcase hc.symm)]
          exact ⟨rfl, rfl⟩
    | none =>
      rw [hid] at h1
      rcases List.mem_append.mp h1 with h1s | h1n
      · rw [nodup_ids_unique store hnodup r1 r h1s hr hid1]
        exact ⟨rfl, rfl⟩
      · have h1r : r1 = customInsertRow city stop := List.mem_singleton.mp h1n
        have : r.id ≠ canonicalIdForCustomStop city stop :=
          getCanonicalStopById_none_spec store _ hid r hr
        rw [h1r] at hid1
        exact absurd (hid1.symm.trans rfl) this

/-! Helper lemmas about asset upserts and the finalisation block. -/

theorem findAsset_map_replace : ∀ (assets : List AssetRow) (row : AssetRow),
    assets.any (fun a =>
      decide (a.canonical_stop_id = row.canonical_stop_id ∧ a.persona = row.persona)) = true →
    findAsset (assets.map (fun a =>
        if a.canonical_stop_id = row.canonical_stop_id ∧ a.persona = row.persona then row
        else a)) row.canonical_stop_id row.persona = some row := by
  intro assets
  induction assets with
  | nil => intro row hany; simp at hany
  | cons a rest ih =>
    intro row hany
    by_cases hk : a.canonical_stop_id = row.canonical_stop_id ∧ a.persona = row.persona
    · simp only [List.map_cons, if_pos hk, findAsset]
      rw [List.find?_cons_of_pos]
      simp
    · have hpred : (decide (a.canonical_stop_id = row.canonical_stop_id ∧
          a.persona = row.persona)) = false := by simp [hk]
      simp only [List.any_cons, hpred, Bool.false_or] at hany
      simp only [List.map_cons, if_neg hk, findAsset]
      rw [List.find?_cons_of_neg _ (by simp [hk])]
      exact ih row hany

theorem findAsset_upsertAssetRow_self (assets : List AssetRow) (row : AssetRow) :
    findAsset (upsertAssetRow assets row) row.canonical_stop_id row.persona = some row := by
  rw [upsertAssetRow]
  split
  · next hany => exact findAsset_map_replace assets row hany
  · next hany =>
    rw [findAsset, List.find?_append]
    have hnone : assets.find? (fun a =>
        decide (a.canonical_stop_id = row.canonical_stop_id ∧ a.persona = row.persona)) =
          none := by
      rw [List.find?_eq_none]
      intro a ha hk
      exact hany (List.any_eq_true.mpr ⟨a, ha, hk⟩)
    rw [hnone]
    simp [List.find?]

theorem findAsset_map_replace_other : ∀ (assets : List AssetRow) (row : AssetRow)
    (cid : CanonId) (p : Persona), ¬(cid = row.canonical_stop_id ∧ p = row.persona) →
    findAsset (assets.map (fun a =>
        if a.canonical_stop_id = row.canonical_stop_id ∧ a.persona = row.persona then row
        else a)) cid p = findAsset assets cid p := by
  intro assets
  induction assets with
  | nil => intro row cid p h; rfl
  | cons a rest ih =>
    intro row cid p h
    by_cases hk : a.canonical_stop_id = row.canonical_stop_id ∧ a.persona = row.persona
    · have hpa : (decide (a.canonical_stop_id = cid ∧ a.persona = p)) = false := by
        simp only [decide_eq_false_iff_not]
        intro hc
        exact h ⟨hc.1.symm.trans hk.1, hc.2.symm.trans hk.2⟩
      have hprow : (decide (row.canonical_stop_id = cid ∧ row.persona = p)) = false := by
        simp only [decide_eq_false_iff_not]
        intro hc
        exact h ⟨hc.1.symm, hc.2.symm⟩
      simp only [List.map_cons, if_pos hk, findAsset, List.find?_cons, hpa, hprow]
      exact ih row cid p h
    · simp only [List.map_cons, if_neg hk, findAsset, List.find?_cons]
      cases hpa : (decide (a.canonical_stop_id = cid ∧ a.persona = p)) with
      | true => rfl
      | false => exact ih row cid p h

theorem findAsset_upsertAssetRow_other (assets : List AssetRow) (row : AssetRow)
    (cid : CanonId) (p : Persona) (h : ¬(cid = row.canonical_stop_id ∧ p = row.persona)) :
    findAsset (upsertAssetRow assets row) cid p = findAsset assets cid p := by
  rw [upsertAssetRow]
  split
  · exact findAsset_map_replace_other assets row cid p h
  · rw [findAsset, List.find?_append, findAsset]
    cases hfind : assets.find? (fun a => decide (a.canonical_stop_id = cid ∧ a.persona = p)) with
    | some x => rfl
    | none =>
      have hprow : (decide (row.canonical_stop_id = cid ∧ row.persona = p)) = false := by
        simp only [decide_eq_false_iff_not]
        intro hc
        exact h ⟨hc.1.symm, hc.2.symm⟩
      simp only [List.find?_cons, hprow, List.find?_nil]
      rfl

theorem presetFinalize_final_counters (persona : Persona) (stC : GenSt) :
    (presetFinalize persona stC).final.assets = stC.assets ∧
      (presetFinalize persona stC).final.events = stC.events ∧
      (presetFinalize persona stC).final.warningCount = stC.warningCount ∧
      (presetFinalize persona stC).final.lastWarning = stC.lastWarning ∧
      (presetFinalize persona stC).final.audioReadyCount = stC.audioReadyCount := by
  rw [presetFinalize]
  split
  · exact ⟨rfl, rfl, rfl, rfl, rfl⟩
  · split
    · exact ⟨rfl, rfl, rfl, rfl, rfl⟩
    · exact ⟨rfl, rfl, rfl, rfl, rfl⟩

/-- C3: finalisation policy of a preset job run.  When no stop produced
usable audio the run throws and the catch handler marks the job `failed`
(with `progress = 100` and the thrown message as error); otherwise warnings
give `ready_with_warnings` with the aggregated count-plus-last-message
summary, and a clean run gives `ready` with a null error. -/
theorem presetJobFinalStatusPolicy (cfg : GenerationSwitch) (routeId city : String)
    (persona : Persona) (stops : List StopInput) (so : ℕ → ScriptOutcome)
    (ao : ℕ → AudioOutcome) (st0 : GenSt) :
    ((runPresetGeneration cfg routeId city persona stops so ao st0).final.audioReadyCount = 0 →
      (runPresetGeneration cfg routeId city persona stops so ao st0).thrown.isSome = true ∧
      (runPresetJob cfg routeId city persona stops so ao st0).job.status = JobStatus.failed ∧
      (runPresetJob cfg routeId city persona stops so ao st0).job.progress = 100) ∧
    ((runPresetGeneration cfg routeId city persona stops so ao st0).final.audioReadyCount ≠ 0 →
      0 < (runPresetGeneration cfg routeId city persona stops so ao st0).final.warningCount →
      (runPresetJob cfg routeId city persona stops so ao st0).job =
        ⟨JobStatus.ready_with_warnings, 100, "Preset ready with warnings",
          some (presetJobErrorText
            (runPresetGeneration cfg routeId city persona stops so ao st0).final.warningCount
            (runPresetGeneration cfg routeId city persona stops so ao st0).final.lastWarning)⟩) ∧
    ((runPresetGeneration cfg routeId city persona stops so ao st0).final.audioReadyCount ≠ 0 →
      (runPresetGeneration cfg routeId city persona stops so ao st0).final.warningCount = 0 →
      (runPresetJob cfg routeId city persona stops so ao st0).job =
        ⟨JobStatus.ready, 100, "Preset ready", none⟩) := by
  simp only [runPresetJob, runPresetGeneration]
  obtain ⟨ha, he, hw, hl, hr⟩ := presetFinalize_final_counters persona
    (presetLoopState cfg routeId city persona stops so ao st0)
  generalize hst : presetLoopState cfg routeId city persona stops so ao st0 = stC
  rw [hst] at ha he hw hl hr
  rw [presetFinalize] at ha he hw hl hr ⊢
  by_cases h0 : stC.audioReadyCount = 0
  · rw [if_pos h0] at ha he hw hl hr ⊢
    refine ⟨fun _ => ⟨rfl, rfl, rfl⟩, fun hne _ => absurd (hr.trans h0) hne, fun hne _ =>
      absurd (hr.trans h0) hne⟩
  · rw [if_neg h0] at ha he hw hl hr ⊢
    by_cases hwpos : 0 < stC.warningCount
    · rw [if_pos hwpos] at ha he hw hl hr ⊢
      refine ⟨fun hzero => absurd (hr.symm.trans hzero) h0, fun _ _ => ?_, fun _ hwzero => ?_⟩
      · rw [hw, hl]
      · rw [hw] at hwzero
        exact absurd hwzero (Nat.pos_iff_ne_zero.mp hwpos)
    · rw [if_neg hwpos] at ha he hw hl hr ⊢
      refine ⟨fun hzero => absurd (hr.symm.trans hzero) h0, fun _ hwp => ?_, fun _ _ => rfl⟩
      rw [hw] at hwp
      exact absurd hwp hwpos

/-! Helper lemmas for progress reporting. -/

theorem progressValue_le_99 (t d : ℕ) : progressValue t d ≤ 99 := min_le_left _ _

theorem progressValue_mono (t : ℕ) {d e : ℕ} (h : d ≤ e) :
    progressValue t d ≤ progressValue t e :=
  min_le_min (le_refl 99) (Nat.div_le_div_right (Nat.mul_le_mul_right _ h))

theorem presetScriptStep_progress (cfg : GenerationSwitch) (city routeId : String)
    (persona : Persona) (t : ℕ) (oc : ScriptOutcome) (i : ℕ) (stop : StopInput) (st : GenSt) :
    ((presetScriptStep cfg city routeId persona t oc i stop st).1.events.map
        (fun e => e.progress) =
      st.events.map (fun e => e.progress) ++ [progressValue t (st.doneUnits + 1)]) ∧
    (presetScriptStep cfg city routeId persona t oc i stop st).1.doneUnits =
      st.doneUnits + 1 := by
  constructor <;> simp [presetScriptStep, updateProgress]

theorem presetAudioStep_progress (cfg : GenerationSwitch) (persona : Persona) (t : ℕ)
    (oc : AudioOutcome) (state : RowState) (st : GenSt) :
    ((presetAudioStep cfg persona t oc state st).events.map (fun e => e.progress) =
      st.events.map (fun e => e.progress) ++ [progressValue t (st.doneUnits + 1)]) ∧
    (presetAudioStep cfg persona t oc state st).doneUnits = st.doneUnits + 1 := by
  constructor <;> simp [presetAudioStep, updateProgress]

theorem progress_range_shift (t d m : ℕ) :
    (List.range (m + 1)).map (fun k => progressValue t (d + k + 1)) =
      progressValue t (d + 1) ::
        (List.range m).map (fun k => progressValue t (d + 1 + k + 1)) := by
  rw [List.range_succ_eq_map]
  simp only [List.map_cons, List.map_map]
  have h0 : d + 0 + 1 = d + 1 := by omega
  rw [h0]
  refine congrArg (List.cons _) ?_
  refine List.map_congr_left ?_
  intro k _
  simp only [Function.comp_apply]
  have h1 : d + (k + 1) + 1 = d + 1 + k + 1 := by omega
  rw [h1]

theorem presetScriptPhase_cons (cfg : GenerationSwitch) (city routeId : String)
    (persona : Persona) (t : ℕ) (so : ℕ → ScriptOutcome) (stop : StopInput)
    (rest : List StopInput) (i : ℕ) (st : GenSt) :
    presetScriptPhase cfg city routeId persona t so (stop :: rest) i st =
      ((presetScriptPhase cfg city routeId persona t so rest (i + 1)
          (presetScriptStep cfg city routeId persona t (so i) i stop st).1).1,
        (presetScriptStep cfg city routeId persona t (so i) i stop st).2 ::
          (presetScriptPhase cfg city routeId persona t so rest (i + 1)
            (presetScriptStep cfg city routeId persona t (so i) i stop st).1).2) := rfl

theorem presetAudioPhase_cons (cfg : GenerationSwitch) (persona : Persona) (t : ℕ)
    (ao : ℕ → AudioOutcome) (state : RowState) (rest : List RowState) (i : ℕ) (st : GenSt) :
    presetAudioPhase cfg persona t ao (state :: rest) i st =
      presetAudioPhase cfg persona t ao rest (i + 1)
        (presetAudioStep cfg persona t (ao i) state st) := rfl

set_option maxHeartbeats 1600000 in
theorem presetScriptPhase_progress (cfg : GenerationSwitch) (city routeId : String)
    (persona : Persona) (t : ℕ) (so : ℕ → ScriptOutcome) :
    ∀ (stops : List StopInput) (i : ℕ) (st : GenSt),
      ((presetScriptPhase cfg city routeId persona t so stops i st).1.events.map
          (fun e => e.progress) =
        st.events.map (fun e => e.progress) ++
          (List.range stops.length).map (fun k => progressValue t (st.doneUnits + k + 1))) ∧
      (presetScriptPhase cfg city routeId persona t so stops i st).1.doneUnits =
        st.doneUnits + stops.length ∧
      (presetScriptPhase cfg city routeId persona t so stops i st).2.length =
        stops.length := by
  intro stops
  induction stops with
  | nil =>
    intro i st
    exact ⟨by simp [presetScriptPhase], by simp [presetScriptPhase], by simp [presetScriptPhase]⟩
  | cons stop rest ih =>
    intro i st
    obtain ⟨hse, hsd⟩ :=
      presetScriptStep_progress cfg city routeId persona t (so i) i stop st
    obtain ⟨hre, hrd, hrl⟩ := ih (i + 1)
      (presetScriptStep cfg city routeId persona t (so i) i stop st).1
    refine ⟨?_, ?_, ?_⟩
    · rw [presetScriptPhase_cons]
      dsimp only
      rw [hre, hse, hsd, List.length_cons, progress_range_shift, List.append_assoc,
        List.singleton_append]
    · rw [presetScriptPhase_cons]
      rw [hrd, hsd, List.length_cons]
      omega
    · rw [presetScriptPhase_cons]
      rw [List.length_cons, List.length_cons, hrl]
set_option maxHeartbeats 1600000 in
theorem presetAudioPhase_progress (cfg : GenerationSwitch) (persona : Persona) (t : ℕ)
    (ao : ℕ → AudioOutcome) :
    ∀ (states : List RowState) (i : ℕ) (st : GenSt),
      ((presetAudioPhase cfg persona t ao states i st).events.map (fun e => e.progress) =
        st.events.map (fun e => e.progress) ++
          (List.range states.length).map (fun k => progressValue t (st.doneUnits + k + 1))) ∧
      (presetAudioPhase cfg persona t ao states i st).doneUnits =
        st.doneUnits + states.length := by
  intro states
  induction states with
  | nil =>
    intro i st
    exact ⟨by simp [presetAudioPhase], by simp [presetAudioPhase]⟩
  | cons state rest ih =>
    intro i st
    obtain ⟨hse, hsd⟩ := presetAudioStep_progress cfg persona t (ao i) state st
    obtain ⟨hre, hrd⟩ := ih (i + 1) (presetAudioStep cfg persona t (ao i) state st)
    refine ⟨?_, ?_⟩
    · rw [presetAudioPhase_cons]
      rw [hre, hse, hsd, List.length_cons, progress_range_shift, List.append_assoc,
        List.singleton_append]
    · rw [presetAudioPhase_cons]
      rw [hrd, hsd, List.length_cons]
      omega

theorem presetScriptPhase_events_eq (cfg : GenerationSwitch) (city routeId : String)
    (persona : Persona) (t : ℕ) (so : ℕ → ScriptOutcome) (stops : List StopInput)
    (i : ℕ) (st : GenSt) :
    (presetScriptPhase cfg city routeId persona t so stops i st).1.events.map
        (fun e => e.progress) =
      st.events.map (fun e => e.progress) ++
        (List.range stops.length).map (fun k => progressValue t (st.doneUnits + k + 1)) :=
  (presetScriptPhase_progress cfg city routeId persona t so stops i st).1

theorem presetScriptPhase_doneUnits_eq (cfg : GenerationSwitch) (city routeId : String)
    (persona : Persona) (t : ℕ) (so : ℕ → ScriptOutcome) (stops : List StopInput)
    (i : ℕ) (st : GenSt) :
    (presetScriptPhase cfg city routeId persona t so stops i st).1.doneUnits =
      st.doneUnits + stops.length :=
  (presetScriptPhase_progress cfg city routeId persona t so stops i st).2.1

theorem presetScriptPhase_states_length (cfg : GenerationSwitch) (city routeId : String)
    (persona : Persona) (t : ℕ) (so : ℕ → ScriptOutcome) (stops : List StopInput)
    (i : ℕ) (st : GenSt) :
    (presetScriptPhase cfg city routeId persona t so stops i st).2.length = stops.length :=
  (presetScriptPhase_progress cfg city routeId persona t so stops i st).2.2

theorem presetAudioPhase_events_eq (cfg : GenerationSwitch) (persona : Persona) (t : ℕ)
    (ao : ℕ → AudioOutcome) (states : List RowState) (i : ℕ) (st : GenSt) :
    (presetAudioPhase cfg persona t ao states i st).events.map (fun e => e.progress) =
      st.events.map (fun e => e.progress) ++
        (List.range states.length).map (fun k => progressValue t (st.doneUnits + k + 1)) :=
  (presetAudioPhase_progress cfg persona t ao states i st).1

theorem updateProgress_events_eq (t : ℕ) (status : JobStatus) (msg : String) (st : GenSt) :
    (updateProgress t status msg st).events.map (fun e => e.progress) =
      st.events.map (fun e => e.progress) ++ [progressValue t st.doneUnits] := by
  simp [updateProgress]

theorem updateProgress_doneUnits (t : ℕ) (status : JobStatus) (msg : String) (st : GenSt) :
    (updateProgress t status msg st).doneUnits = st.doneUnits := rfl

theorem presetLoopState_events (cfg : GenerationSwitch) (routeId city : String)
    (persona : Persona) (stops : List StopInput) (so : ℕ → ScriptOutcome)
    (ao : ℕ → AudioOutcome) (st0 : GenSt) :
    (presetLoopState cfg routeId city persona stops so ao st0).events.map
        (fun e => e.progress) =
      ((([progressValue (max 1 (stops.length * 2)) 0] ++
        (List.range stops.length).map
          (fun k => progressValue (max 1 (stops.length * 2)) (0 + k + 1))) ++
        [progressValue (max 1 (stops.length * 2)) stops.length]) ++
        (List.range stops.length).map
          (fun k => progressValue (max 1 (stops.length * 2)) (stops.length + k + 1))) := by
  rw [presetLoopState]
  rw [presetAudioPhase_events_eq, updateProgress_events_eq, updateProgress_doneUnits,
    presetScriptPhase_events_eq, presetScriptPhase_doneUnits_eq,
    presetScriptPhase_states_length, updateProgress_events_eq, updateProgress_doneUnits]
  have h1 : ({ st0 with events := ([] : List ProgressEvent), doneUnits := 0, warningCount := 0, lastWarning := "", audioReadyCount := 0 } : GenSt).events.map (fun e => e.progress) = [] := rfl
  have h2 : ({ st0 with events := ([] : List ProgressEvent), doneUnits := 0, warningCount := 0, lastWarning := "", audioReadyCount := 0 } : GenSt).doneUnits = 0 := rfl
  rw [h1, h2, List.nil_append]
  have h3 : (0 : ℕ) + stops.length = stops.length := by omega
  rw [h3]

theorem runPresetJob_events_eq (cfg : GenerationSwitch) (routeId city : String)
    (persona : Persona) (stops : List StopInput) (so : ℕ → ScriptOutcome)
    (ao : ℕ → AudioOutcome) (st0 : GenSt) :
    (runPresetJob cfg routeId city persona stops so ao st0).events =
      (presetLoopState cfg routeId city persona stops so ao st0).events ∧
    (runPresetJob cfg routeId city persona stops so ao st0).job.progress = 100 := by
  simp only [runPresetJob, runPresetGeneration]
  generalize presetLoopState cfg routeId city persona stops so ao st0 = stC
  rw [presetFinalize]
  by_cases h0 : stC.audioReadyCount = 0
  · rw [if_pos h0]
    exact ⟨rfl, rfl⟩
  · rw [if_neg h0]
    by_cases hw : 0 < stC.warningCount
    · rw [if_pos hw]
      exact ⟨rfl, rfl⟩
    · rw [if_neg hw]
      exact ⟨rfl, rfl⟩

theorem presetProgressIndexList_pairwise (n : ℕ) :
    List.Pairwise (· ≤ ·) (presetProgressIndexList n) := by
  rw [presetProgressIndexList, List.pairwise_append]
  refine ⟨(List.pairwise_lt_range (n + 1)).imp (fun h => le_of_lt h), ?_, ?_⟩
  · exact List.Pairwise.map _ (fun a b h => Nat.add_le_add_left (le_of_lt h) n)
      (List.pairwise_lt_range (n + 1))
  · intro x hx y hy
    obtain ⟨k, hk, rfl⟩ := List.mem_map.mp hy
    have hxn := List.mem_range.mp hx
    omega

theorem expectedPresetProgressList_pairwise (n : ℕ) :
    List.Pairwise (· ≤ ·) (expectedPresetProgressList n) := by
  rw [expectedPresetProgressList]
  exact List.Pairwise.map _ (fun a b h => progressValue_mono _ h)
    (presetProgressIndexList_pairwise n)

theorem expectedPresetProgressList_le_99 (n : ℕ) :
    ∀ x ∈ expectedPresetProgressList n, x ≤ 99 := by
  intro x hx
  rw [expectedPresetProgressList] at hx
  obtain ⟨k, hk, rfl⟩ := List.mem_map.mp hx
  exact progressValue_le_99 _ _

theorem expectedPresetProgressList_shape (n : ℕ) :
    expectedPresetProgressList n =
      ((([progressValue (n * 2) 0] ++
        (List.range n).map (fun k => progressValue (n * 2) (0 + k + 1))) ++
        [progressValue (n * 2) n]) ++
        (List.range n).map (fun k => progressValue (n * 2) (n + k + 1))) := by
  rw [expectedPresetProgressList, presetProgressIndexList, List.map_append, List.map_map,
    List.range_succ_eq_map]
  simp only [List.map_cons, List.map_map, List.append_assoc, List.singleton_append,
    List.cons_append, Function.comp_apply, Nat.add_zero, List.nil_append]
  refine congrArg (List.cons _) ?_
  refine congrArg₂ (fun a b => a ++ b) ?_ ?_
  · refine List.map_congr_left ?_
    intro k _
    simp only [Function.comp_apply]
    congr 1
    omega
  · refine congrArg (List.cons _) ?_
    refine List.map_congr_left ?_
    intro k _
    simp only [Function.comp_apply]
    congr 1

/-- C4: progress reporting of a preset run.  The reported progress values
are exactly `floor(doneUnits * 100 / totalUnits)` capped at 99 with
`totalUnits = 2` units per stop and `doneUnits` advanced by one per script
or audio unit; the sequence is non-decreasing, every mid-run value is at
most 99, and the job row reaches progress 100 exactly at finalisation. -/
theorem presetProgressReporting (cfg : GenerationSwitch) (routeId city : String)
    (persona : Persona) (stops : List StopInput) (so : ℕ → ScriptOutcome)
    (ao : ℕ → AudioOutcome) (st0 : GenSt) (hne : stops ≠ []) :
    ((runPresetJob cfg routeId city persona stops so ao st0).events.map
        (fun e => e.progress) = expectedPresetProgressList stops.length) ∧
    List.Pairwise (· ≤ ·)
      ((runPresetJob cfg routeId city persona stops so ao st0).events.map
        (fun e => e.progress)) ∧
    (∀ e ∈ (runPresetJob cfg routeId city persona stops so ao st0).events,
      e.progress ≤ 99) ∧
    (runPresetJob cfg routeId city persona stops so ao st0).job.progress = 100 := by
  have hmax : max 1 (stops.length * 2) = stops.length * 2 := by
    have := List.length_pos.mpr hne
    omega
  obtain ⟨hev, hprog⟩ := runPresetJob_events_eq cfg routeId city persona stops so ao st0
  have hfull : (runPresetJob cfg routeId city persona stops so ao st0).events.map
      (fun e => e.progress) = expectedPresetProgressList stops.length := by
    rw [hev, presetLoopState_events, hmax, expectedPresetProgressList_shape]
  refine ⟨hfull, ?_, ?_, hprog⟩
  · rw [hfull]
    exact expectedPresetProgressList_pairwise stops.length
  · intro e he
    have : e.progress ∈ (runPresetJob cfg routeId city persona stops so ao st0).events.map
        (fun e => e.progress) := List.mem_map_of_mem _ he
    rw [hfull] at this
    exact expectedPresetProgressList_le_99 stops.length _ this

theorem trimLeftChars_head? : ∀ (l : List Char) (c : Char),
    (trimLeftChars l).head? = some c → c.isWhitespace = false := by
  intro l
  induction l with
  | nil => intro c h; simp [trimLeftChars] at h
  | cons a rest ih =>
    intro c h
    by_cases ha : a.isWhitespace
    · rw [trimLeftChars, if_pos ha] at h
      exact ih c h
    · rw [trimLeftChars, if_neg ha, List.head?_cons] at h
      have hac := Option.some.inj h
      subst hac
      simpa using ha

theorem trimLeftChars_eq_self (l : List Char)
    (h : ∀ c, l.head? = some c → c.isWhitespace = false) : trimLeftChars l = l := by
  cases l with
  | nil => rfl
  | cons a rest =>
    have ha := h a (by rw [List.head?_cons])
    rw [trimLeftChars, if_neg (by simp [ha])]

theorem trimLeftChars_suffix : ∀ (l : List Char), trimLeftChars l <:+ l := by
  intro l
  induction l with
  | nil => exact List.suffix_rfl
  | cons a rest ih =>
    by_cases ha : a.isWhitespace
    · rw [trimLeftChars, if_pos ha]
      exact ih.trans (List.suffix_cons a rest)
    · rw [trimLeftChars, if_neg ha]

theorem getLast?_of_suffix {l₁ l₂ : List Char} (h : l₂ <:+ l₁) (hne : l₂ ≠ []) :
    l₂.getLast? = l₁.getLast? := by
  obtain ⟨t, rfl⟩ := h
  rw [List.getLast?_append]
  cases hx : l₂.getLast? with
  | none => exact absurd (List.getLast?_eq_none_iff.mp hx) hne
  | some x => rfl

theorem jsTrim_head?_not_ws (s : String) :
    ∀ c, (jsTrim s).data.head? = some c → c.isWhitespace = false := by
  intro c h
  rw [jsTrim] at h
  dsimp only at h
  rw [List.head?_reverse] at h
  by_cases hB : trimLeftChars ((trimLeftChars s.data).reverse) = []
  · rw [hB] at h; simp at h
  · rw [getLast?_of_suffix (trimLeftChars_suffix _) hB, List.getLast?_reverse] at h
    exact trimLeftChars_head? _ c h

theorem jsTrim_getLast?_not_ws (s : String) :
    ∀ c, (jsTrim s).data.getLast? = some c → c.isWhitespace = false := by
  intro c h
  rw [jsTrim] at h
  dsimp only at h
  rw [List.getLast?_reverse] at h
  exact trimLeftChars_head? _ c h

theorem jsTrim_idem (s : String) : jsTrim (jsTrim s) = jsTrim s := by
  have hA : trimLeftChars (jsTrim s).data = (jsTrim s).data :=
    trimLeftChars_eq_self _ (jsTrim_head?_not_ws s)
  have hB : trimLeftChars ((jsTrim s).data.reverse) = (jsTrim s).data.reverse := by
    refine trimLeftChars_eq_self _ ?_
    intro c hc
    rw [List.head?_reverse] at hc
    exact jsTrim_getLast?_not_ws s c hc
  show (⟨(trimLeftChars ((trimLeftChars (jsTrim s).data).reverse)).reverse⟩ : String) = jsTrim s
  rw [hA, hB, List.reverse_reverse]

theorem toNullableTrimmed_idem (o : Option String) :
    toNullableTrimmed (toNullableTrimmed o) = toNullableTrimmed o := by
  cases o with
  | none => rfl
  | some v =>
    simp only [toNullableTrimmed]
    by_cases h : jsTrim v = ""
    · simp [h]
    · simp [h, toNullableTrimmed, jsTrim_idem]

theorem scriptFailMsg_ne_empty (persona : Persona) (title msg : String) :
    scriptFailMsg persona title msg ≠ "" := by
  intro h
  have hl := congrArg String.length h
  simp only [scriptFailMsg, String.length_append] at hl
  have h29 : ("Script generation failed for " : String).length = 29 := rfl
  have h0 : ("" : String).length = 0 := rfl
  omega

/-- C5 (amended): script-phase failure handling in `presetScriptStep`.  When no
stored script is reused — because none survives trimming or because a
script-forcing mode discards it — a failed generation call persists the asset
with a `null` script (the stored script is NOT retained), status `failed` and
the warning as its error, incrementing the warning count and retaining the
failure message; when a stored non-blank script exists outside the forcing
modes it is reused unchanged with status `ready` and no warning; and a blank
generation result persists a `null` script with status `failed` without
counting a warning. -/
theorem scriptPhaseFailureHandling (cfg : GenerationSwitch) (city routeId : String)
    (persona : Persona) (t i : ℕ) (stop : StopInput) (st : GenSt) :
    (∀ msg : String,
      (if shouldRegenerateScript cfg.mode = false then
          toNullableTrimmed ((findAsset st.assets
            (ensureCanonicalStopForPreset st.canon city stop).2.id persona).bind
              (fun a => a.script))
        else none) = none →
      findAsset
          (presetScriptStep cfg city routeId persona t (ScriptOutcome.err msg) i stop st).1.assets
          (ensureCanonicalStopForPreset st.canon city stop).2.id persona =
        some ⟨(ensureCanonicalStopForPreset st.canon city stop).2.id, persona, none,
          toNullableTrimmed ((findAsset st.assets
            (ensureCanonicalStopForPreset st.canon city stop).2.id persona).bind
              (fun a => a.audio_url)),
          AssetStatus.failed, some (scriptFailMsg persona stop.title msg)⟩ ∧
      (presetScriptStep cfg city routeId persona t (ScriptOutcome.err msg) i stop st).1.warningCount
          = st.warningCount + 1 ∧
      (presetScriptStep cfg city routeId persona t (ScriptOutcome.err msg) i stop st).1.lastWarning
          = scriptFailMsg persona stop.title msg) ∧
    (∀ s0 : String, ∀ oc : ScriptOutcome, shouldRegenerateScript cfg.mode = false →
      toNullableTrimmed ((findAsset st.assets
        (ensureCanonicalStopForPreset st.canon city stop).2.id persona).bind
          (fun a => a.script)) = some s0 →
      findAsset (presetScriptStep cfg city routeId persona t oc i stop st).1.assets
          (ensureCanonicalStopForPreset st.canon city stop).2.id persona =
        some ⟨(ensureCanonicalStopForPreset st.canon city stop).2.id, persona, some s0,
          toNullableTrimmed ((findAsset st.assets
            (ensureCanonicalStopForPreset st.canon city stop).2.id persona).bind
              (fun a => a.audio_url)),
          AssetStatus.ready, none⟩ ∧
      (presetScriptStep cfg city routeId persona t oc i stop st).1.warningCount = st.warningCount ∧
      (presetScriptStep cfg city routeId persona t oc i stop st).1.lastWarning = st.lastWarning) ∧
    (∀ text : String,
      (if shouldRegenerateScript cfg.mode = false then
          toNullableTrimmed ((findAsset st.assets
            (ensureCanonicalStopForPreset st.canon city stop).2.id persona).bind
              (fun a => a.script))
        else none) = none →
      toNullableTrimmed (some text) = none →
      findAsset
          (presetScriptStep cfg city routeId persona t (ScriptOutcome.ok text) i stop st).1.assets
          (ensureCanonicalStopForPreset st.canon city stop).2.id persona =
        some ⟨(ensureCanonicalStopForPreset st.canon city stop).2.id, persona, none,
          toNullableTrimmed ((findAsset st.assets
            (ensureCanonicalStopForPreset st.canon city stop).2.id persona).bind
              (fun a => a.audio_url)),
          AssetStatus.failed,
          some (if st.lastWarning = "" then "Script generation failed" else st.lastWarning)⟩ ∧
      (presetScriptStep cfg city routeId persona t (ScriptOutcome.ok text) i stop st).1.warningCount
          = st.warningCount ∧
      (presetScriptStep cfg city routeId persona t (ScriptOutcome.ok text) i stop st).1.lastWarning
          = st.lastWarning) := by
  refine ⟨?_, ?_, ?_⟩
  · intro msg h
    refine ⟨?_, ?_, ?_⟩ <;>
      simp only [presetScriptStep, updateProgress, h] <;>
      simp [if_neg (scriptFailMsg_ne_empty persona stop.title msg)]
    exact findAsset_upsertAssetRow_self st.assets _
  · intro s0 oc hf hs
    refine ⟨?_, ?_, ?_⟩ <;>
      simp only [presetScriptStep, updateProgress, hf, hs] <;>
      simp
    exact findAsset_upsertAssetRow_self st.assets _
  · intro text h het
    refine ⟨?_, ?_, ?_⟩ <;>
      simp only [presetScriptStep, updateProgress, h, het] <;>
      simp
    exact findAsset_upsertAssetRow_self st.assets _

/-- C6 (amended): audio-reuse usability.  The preset orchestrator's audio step
reuses ANY stored audio URL that is non-blank after trimming — including
unusable bare `/audio/` placeholder paths — whenever no replay override is set
and the mode is not audio-forcing; only the usable ones are counted towards
`audioReadyCount`.  The usability filter of the claim does hold for the
mix-route decision chain: there a stored URL is reused iff
`isUsableGeneratedAudioUrl` accepts it, and an unusable stored URL behaves
exactly as an absent one (synthesis from the script is attempted instead). -/
theorem audioReuseUsabilityPolicy (cfg : GenerationSwitch) (persona : Persona) (t : ℕ)
    (state : RowState) (st : GenSt) (replayRaw existingRaw reusableRaw textRaw : Option String)
    (oc : AudioOutcome) :
    (∀ u : String, ∀ oc' : AudioOutcome, shouldRegenerateAudio cfg.mode = false →
      toNullableTrimmed (cfg.replay_audio state.stop.id persona) = none →
      toNullableTrimmed ((findAsset st.assets state.canonicalStopId persona).bind
        (fun a => a.audio_url)) = some u →
      findAsset (presetAudioStep cfg persona t oc' state st).assets
          state.canonicalStopId persona =
        some ⟨state.canonicalStopId, persona,
          (toNullableTrimmed ((findAsset st.assets state.canonicalStopId persona).bind
            (fun a => a.script))).orElse (fun _ => state.script),
          some u, AssetStatus.ready, none⟩ ∧
      (presetAudioStep cfg persona t oc' state st).audioReadyCount =
        (if isUsableGeneratedAudioUrl (some u) then st.audioReadyCount + 1
         else st.audioReadyCount) ∧
      (presetAudioStep cfg persona t oc' state st).warningCount = st.warningCount) ∧
    (isUsableGeneratedAudioUrl (toNullableTrimmed existingRaw) = true →
      toNullableTrimmed replayRaw = none →
      mixAudioUrlDecision false replayRaw existingRaw reusableRaw textRaw oc =
        toNullableTrimmed existingRaw) ∧
    (∀ force : Bool, isUsableGeneratedAudioUrl (toNullableTrimmed existingRaw) = false →
      mixAudioUrlDecision force replayRaw existingRaw reusableRaw textRaw oc =
        mixAudioUrlDecision force replayRaw none reusableRaw textRaw oc) := by
  refine ⟨?_, ?_, ?_⟩
  · intro u oc' hf hr hu
    refine ⟨?_, ?_, ?_⟩ <;>
      simp only [presetAudioStep, updateProgress, hf, hr, hu] <;>
      simp
    exact findAsset_upsertAssetRow_self st.assets _
  · intro hu hr
    simp only [mixAudioUrlDecision, hr, hu]
    simp [toNullableTrimmed_idem]
  · intro force hu
    simp only [mixAudioUrlDecision, hu]
    simp [hu, toNullableTrimmed, isUsableGeneratedAudioUrl]

theorem ensurePreset_snd_id (store : List CanonicalStopRow) (city : String) (stop : StopInput) :
    (ensureCanonicalStopForPreset store city stop).2.id = CanonId.preset city stop.id := by
  rw [show CanonId.preset city stop.id = canonicalIdForPresetStop city stop from rfl]
  cases hex : getCanonicalStopById store (canonicalIdForPresetStop city stop) with
  | some existing =>
    simp only [ensureCanonicalStopForPreset, hex, seedLinkImageIfAllowed_snd_id]
    cases hex1 : getCanonicalStopById (refreshPresetFields store
        (canonicalIdForPresetStop city stop) city stop.title stop.lat stop.lng)
        (canonicalIdForPresetStop city stop) with
    | some r => exact (getCanonicalStopById_some_spec _ _ _ hex1).2
    | none => exact (getCanonicalStopById_some_spec _ _ _ hex).2
  | none =>
    simp only [ensureCanonicalStopForPreset, hex]
    rfl

theorem presetScriptStep_snd_stop (cfg : GenerationSwitch) (city routeId : String)
    (persona : Persona) (t : ℕ) (oc : ScriptOutcome) (i : ℕ) (stop : StopInput) (st : GenSt) :
    (presetScriptStep cfg city routeId persona t oc i stop st).2.stop = stop := rfl

theorem presetScriptStep_snd_cid (cfg : GenerationSwitch) (city routeId : String)
    (persona : Persona) (t : ℕ) (oc : ScriptOutcome) (i : ℕ) (stop : StopInput) (st : GenSt) :
    (presetScriptStep cfg city routeId persona t oc i stop st).2.canonicalStopId =
      (ensureCanonicalStopForPreset st.canon city stop).2.id := rfl

theorem presetScriptPhase_states_spec (cfg : GenerationSwitch) (city routeId : String)
    (persona : Persona) (t : ℕ) (so : ℕ → ScriptOutcome) :
    ∀ (stops : List StopInput) (i : ℕ) (st : GenSt),
      ((presetScriptPhase cfg city routeId persona t so stops i st).2.map
        (fun s => s.stop) = stops) ∧
      (∀ s ∈ (presetScriptPhase cfg city routeId persona t so stops i st).2,
        s.canonicalStopId = CanonId.preset city s.stop.id) := by
  intro stops
  induction stops with
  | nil =>
    intro i st
    exact ⟨rfl, by intro s hs; simp [presetScriptPhase] at hs⟩
  | cons stop rest ih =>
    intro i st
    rw [presetScriptPhase_cons]
    obtain ⟨ihmap, ihcid⟩ := ih (i + 1)
      (presetScriptStep cfg city routeId persona t (so i) i stop st).1
    refine ⟨?_, ?_⟩
    · rw [List.map_cons, ihmap, presetScriptStep_snd_stop]
    · intro s hs
      rcases List.mem_cons.mp hs with rfl | hs'
      · rw [presetScriptStep_snd_cid, presetScriptStep_snd_stop, ensurePreset_snd_id]
      · exact ihcid s hs'

theorem presetScriptPhase_states_exists (cfg : GenerationSwitch) (city routeId : String)
    (persona : Persona) (t : ℕ) (so : ℕ → ScriptOutcome) (stops : List StopInput)
    (i : ℕ) (st : GenSt) (stop : StopInput) (hmem : stop ∈ stops) :
    ∃ s ∈ (presetScriptPhase cfg city routeId persona t so stops i st).2,
      s.canonicalStopId = CanonId.preset city stop.id := by
  have hmap := (presetScriptPhase_states_spec cfg city routeId persona t so stops i st).1
  have hin : stop ∈ (presetScriptPhase cfg city routeId persona t so stops i st).2.map
      (fun s => s.stop) := by rw [hmap]; exact hmem
  obtain ⟨s, hs, hseq⟩ := List.mem_map.mp hin
  refine ⟨s, hs, ?_⟩
  rw [(presetScriptPhase_states_spec cfg city routeId persona t so stops i st).2 s hs, hseq]

theorem presetAudioStep_replay (cfg : GenerationSwitch) (persona : Persona) (t : ℕ)
    (oc : AudioOutcome) (state : RowState) (st : GenSt) (u : String)
    (hr : toNullableTrimmed (cfg.replay_audio state.stop.id persona) = some u) :
    (findAsset (presetAudioStep cfg persona t oc state st).assets
      state.canonicalStopId persona).bind (fun a => a.audio_url) = some u := by
  simp only [presetAudioStep, updateProgress, hr]
  simp
  exact congrArg (fun o => o.bind (fun a => a.audio_url))
    (findAsset_upsertAssetRow_self st.assets _)

theorem presetAudioStep_other (cfg : GenerationSwitch) (persona : Persona) (t : ℕ)
    (oc : AudioOutcome) (state : RowState) (st : GenSt) (cid : CanonId)
    (h : cid ≠ state.canonicalStopId) :
    findAsset (presetAudioStep cfg persona t oc state st).assets cid persona =
      findAsset st.assets cid persona := by
  simp only [presetAudioStep, updateProgress]
  refine findAsset_upsertAssetRow_other st.assets _ cid persona ?_
  intro hc
  exact h hc.1

theorem presetAudioPhase_replay_inv (cfg : GenerationSwitch) (persona : Persona) (t : ℕ)
    (ao : ℕ → AudioOutcome) (cid : CanonId) (u : String) :
    ∀ (states : List RowState) (i : ℕ) (st : GenSt),
      (∀ s ∈ states, s.canonicalStopId = cid →
        toNullableTrimmed (cfg.replay_audio s.stop.id persona) = some u) →
      ((findAsset st.assets cid persona).bind (fun a => a.audio_url) = some u ∨
        ∃ s ∈ states, s.canonicalStopId = cid) →
      (findAsset (presetAudioPhase cfg persona t ao states i st).assets cid persona).bind
        (fun a => a.audio_url) = some u := by
  intro states
  induction states with
  | nil =>
    intro i st hall hex
    rcases hex with h | ⟨s, hs, _⟩
    · exact h
    · simp at hs
  | cons state rest ih =>
    intro i st hall hex
    rw [presetAudioPhase_cons]
    by_cases hc : state.canonicalStopId = cid
    · refine ih (i + 1) _ (fun s hs h2 => hall s (List.mem_cons_of_mem _ hs) h2) (Or.inl ?_)
      have hrep := hall state (List.mem_cons_self _ _) hc
      have hstep := presetAudioStep_replay cfg persona t (ao i) state st u hrep
      rw [hc] at hstep
      exact hstep
    · refine ih (i + 1) _ (fun s hs h2 => hall s (List.mem_cons_of_mem _ hs) h2) ?_
      rcases hex with h | ⟨s, hs, hsc⟩
      · left
        rw [presetAudioStep_other cfg persona t (ao i) state st cid (fun hcc => hc hcc.symm)]
        exact h
      · rcases List.mem_cons.mp hs with rfl | hs'
        · exact absurd hsc hc
        · exact Or.inr ⟨s, hs', hsc⟩

theorem runPresetJob_assets (cfg : GenerationSwitch) (routeId city : String) (persona : Persona)
    (stops : List StopInput) (so : ℕ → ScriptOutcome) (ao : ℕ → AudioOutcome) (st0 : GenSt) :
    (runPresetJob cfg routeId city persona stops so ao st0).assets =
      (presetLoopState cfg routeId city persona stops so ao st0).assets := by
  have hfin := (presetFinalize_final_counters persona
    (presetLoopState cfg routeId city persona stops so ao st0)).1
  simp only [runPresetJob, runPresetGeneration]
  cases h : (presetFinalize persona
      (presetLoopState cfg routeId city persona stops so ao st0)).thrown with
  | none => exact hfin
  | some msg => exact hfin

/-- C8: replay override precedence.  For a stop of the run whose
`replay_audio[stop.id][persona]` override trims to a non-blank URL, the audio
URL persisted on the canonical asset row for that stop/persona at the end of
the run equals that (trimmed) override, regardless of the generation mode,
of the oracles' outcomes, and of any stored audio URL. -/
theorem replayOverridePrecedence (cfg : GenerationSwitch) (routeId city : String)
    (persona : Persona) (stops : List StopInput) (so : ℕ → ScriptOutcome)
    (ao : ℕ → AudioOutcome) (st0 : GenSt) (stop : StopInput) (u : String)
    (hmem : stop ∈ stops)
    (hrep : toNullableTrimmed (cfg.replay_audio stop.id persona) = some u) :
    (findAsset (runPresetJob cfg routeId city persona stops so ao st0).assets
      (CanonId.preset city stop.id) persona).bind (fun a => a.audio_url) = some u := by
  rw [runPresetJob_assets, presetLoopState]
  refine presetAudioPhase_replay_inv cfg persona _ ao _ u _ 0 _ ?_ ?_
  · intro s hs hc
    have hspec := (presetScriptPhase_states_spec cfg city routeId persona _ so stops 0 _).2 s hs
    rw [hspec] at hc
    injection hc with h1 h2
    rw [h2]
    exact hrep
  · right
    exact presetScriptPhase_states_exists cfg city routeId persona _ so stops 0 _ stop hmem

section ConcreteEvaluation

attribute [local semireducible] Rat.add Rat.mul Rat.sub Rat.inv

/-- C2 (counterexample): two catalog-path resolutions with distinct local ids
at the same coordinates insert two canonical stops of the same city at
distance zero, violating the separation invariant — the catalog path never
searches by radius. -/
theorem presetResolverPairBreaksSeparation :
    ¬ canonicalSeparationInvariant cosFlat
        (ensureCanonicalStopForPreset
          (ensureCanonicalStopForPreset [] "salem" ⟨"a", "Stop A", 0, 0, ""⟩).1
          "salem" ⟨"b", "Stop B", 0, 0, ""⟩).1 := by
  decide

/-- C2 (amended): after any sequence of user-path resolver calls
(`resolveForUserStop` / `ensureCanonicalStopForCustom`), a store satisfying
the 50 m separation invariant still satisfies it: the user path searches
existing rows by radius before inserting.  (The catalog path does not, see
the counterexample.) -/
theorem resolveUserStops_preserves_separation (cosAvg : ℚ → ℚ)
    (calls : List (String × StopInput)) (store : List CanonicalStopRow)
    (h : canonicalSeparationInvariant cosAvg store) :
    canonicalSeparationInvariant cosAvg (resolveUserStops cosAvg calls store) := by
  induction calls generalizing store with
  | nil => exact h
  | cons c rest ih =>
    obtain ⟨city, stop⟩ := c
    exact ih (ensureCanonicalStopForCustom cosAvg store city stop).1
      (ensureCanonicalStopForCustom_sep cosAvg store city stop h)

/-- Witness for the amended C2 theorem at a concrete call sequence. -/
theorem resolveUserStops_preserves_separation_witness :
    canonicalSeparationInvariant cosFlat
      (resolveUserStops cosFlat [("salem", ⟨"a", "Stop A", 0, 0, ""⟩)] []) :=
  resolveUserStops_preserves_separation cosFlat
    [("salem", ⟨"a", "Stop A", 0, 0, ""⟩)] [] (by decide)

/-- C10: when the user path reuses a canonical stop found within the match
radius, no stored row's id, city, title or coordinates change (at most image
fields are updated), and the returned record is the nearest row. -/
theorem user_reuse_preserves_fields (cosAvg : ℚ → ℚ) (store : List CanonicalStopRow)
    (city : String) (stop : StopInput) (n : CanonicalStopRow)
    (h : findNearestCanonicalStop cosAvg store city stop.lat stop.lng = some n) :
    ((ensureCanonicalStopForCustom cosAvg store city stop).1.map
        (fun r => (r.id, r.city, r.title, r.lat, r.lng)) =
      store.map (fun r => (r.id, r.city, r.title, r.lat, r.lng))) ∧
      (ensureCanonicalStopForCustom cosAvg store city stop).2.id = n.id := by
  simp only [ensureCanonicalStopForCustom, h]
  split
  · constructor
    · simp only [updateImageById, List.map_map]
      congr 1
      funext r
      by_cases hr : r.id = n.id <;> simp [hr]
    · rfl
  · exact ⟨rfl, rfl⟩

/-- Witness for the C10 theorem at a concrete store and stop. -/
theorem user_reuse_preserves_fields_witness :
    ((ensureCanonicalStopForCustom cosFlat [samplePlacesRow] "salem" sampleUserStop).1.map
        (fun r => (r.id, r.city, r.title, r.lat, r.lng)) =
      [samplePlacesRow].map (fun r => (r.id, r.city, r.title, r.lat, r.lng))) ∧
      (ensureCanonicalStopForCustom cosFlat [samplePlacesRow] "salem" sampleUserStop).2.id =
        samplePlacesRow.id :=
  user_reuse_preserves_fields cosFlat [samplePlacesRow] "salem" sampleUserStop
    samplePlacesRow (by decide)

/-- C9 (counterexample): a repeated mix creation request for the same route
deletes that route's previous `route_stop_mappings` rows: re-creating route
`r` with a request listing only stop `s2` removes the stored mapping for
stop `s1`. -/
theorem recreateRemovesDroppedStopMapping :
    ¬ ∃ m ∈ (mixJobsRecreateMappings cosFlat "r" "salem"
        [⟨"s2", "T2", 0, 0, ""⟩] []
        [⟨RouteKind.custom, "r", "s1", CanonId.preset "x" "y", 0⟩]).2,
      m.stop_id = "s1" := by
  decide

/-- C9 (amended): mappings are upserted keyed by
(routeKind, routeId, stopId) and the resolver-level upsert never removes a
row with a different key; but a repeated mix creation request first deletes
the route's previous custom mappings, so after re-creation only mappings of
other routes and mappings for stops of the new request remain. -/
theorem routeStopMapping_upsert_and_recreate (cosAvg : ℚ → ℚ) (routeId city : String)
    (stops : List StopInput) (canon : List CanonicalStopRow) (ms : List RouteStopMapping) :
    (∀ (ms0 : List RouteStopMapping) (kind : RouteKind) (rid sid : String)
        (cid : CanonId) (pos : ℕ) (m : RouteStopMapping), m ∈ ms0 →
          sameMappingKey m kind rid sid = false →
          m ∈ upsertRouteStopMapping ms0 kind rid sid cid pos) ∧
    (∀ m ∈ ms, ¬(m.route_kind = RouteKind.custom ∧ m.route_id = routeId) →
        m ∈ (mixJobsRecreateMappings cosAvg routeId city stops canon ms).2) ∧
    (∀ m ∈ (mixJobsRecreateMappings cosAvg routeId city stops canon ms).2,
        m.route_kind = RouteKind.custom → m.route_id = routeId →
          m.stop_id ∈ stops.map StopInput.id) := by
  refine ⟨fun ms0 kind rid sid cid pos m hm hk =>
    upsertRouteStopMapping_mem_of_ne_key ms0 kind rid sid cid pos m hm hk, ?_, ?_⟩
  · intro m hm hkey
    rw [mixJobsRecreateMappings]
    refine remapStops_preserves_other_routes cosAvg routeId city stops 0 canon _ m ?_ hkey
    rw [deleteCustomMappingsForRoute, List.mem_filter]
    refine ⟨hm, ?_⟩
    simp only [Bool.not_eq_true', Bool.and_eq_false_iff, decide_eq_false_iff_not]
    by_cases hk : m.route_kind = RouteKind.custom
    · exact Or.inr (fun hr => hkey ⟨hk, hr⟩)
    · exact Or.inl hk
  · intro m hm hk hr
    refine remapStops_only_request_stops cosAvg routeId city (stops.map StopInput.id)
      stops 0 canon _ ?_ (fun stop hs => List.mem_map_of_mem _ hs) m hm hk hr
    intro x hx hxk hxr
    rw [deleteCustomMappingsForRoute, List.mem_filter] at hx
    have := hx.2
    simp only [Bool.not_eq_true', Bool.and_eq_false_iff, decide_eq_false_iff_not] at this
    rcases this with hbad | hbad
    · exact absurd hxk hbad
    · exact absurd hxr hbad

/-- Witness for the amended C9 theorem: a preset-route mapping survives a
mix re-creation request. -/
theorem routeStopMapping_upsert_and_recreate_witness :
    (⟨RouteKind.preset, "p", "s", CanonId.preset "c" "s", 0⟩ : RouteStopMapping) ∈
      (mixJobsRecreateMappings cosFlat "r" "salem" [⟨"s2", "T2", 0, 0, ""⟩] []
        [⟨RouteKind.preset, "p", "s", CanonId.preset "c" "s", 0⟩]).2 :=
  (routeStopMapping_upsert_and_recreate cosFlat "r" "salem" [⟨"s2", "T2", 0, 0, ""⟩] []
      [⟨RouteKind.preset, "p", "s", CanonId.preset "c" "s", 0⟩]).2.1
    ⟨RouteKind.preset, "p", "s", CanonId.preset "c" "s", 0⟩ (by decide) (by decide)

/-- C7 (counterexample): a canonical stop whose `image_source` is `places`
but whose stored `image_url` is null is re-seeded by the user path: resolving
a nearby stop that carries a non-placeholder candidate image rewrites
`image_url` and downgrades `image_source` to `link_seed`. -/
theorem placesRowWithNullUrlIsReseeded :
    ∃ r1 ∈ (ensureCanonicalStopForCustom cosFlat [samplePlacesRow] "salem" sampleUserStop).1,
      r1.id = samplePlacesRow.id ∧ r1.image_source ≠ samplePlacesRow.image_source := by
  decide

/-- C7 (amended): a canonical stop whose `image_source` is `places` or
`curated` AND whose stored `image_url` is non-null and non-empty keeps both
image fields unchanged under any catalog-path or user-path resolution
(given primary-key-unique row ids); when the stored `image_url` is missing,
the user path may re-seed it (see the counterexample). -/
theorem strong_image_with_url_is_never_overwritten (cosAvg : ℚ → ℚ)
    (store : List CanonicalStopRow) (city : String) (stop : StopInput) (r : CanonicalStopRow)
    (hnodup : (store.map (fun s => s.id)).Nodup) (hr : r ∈ store)
    (hstrong : isStrongImageSource r.image_source = true)
    (hurl : optTruthy r.image_url = true) :
    (∀ r1 ∈ (ensureCanonicalStopForPreset store city stop).1, r1.id = r.id →
        r1.image_url = r.image_url ∧ r1.image_source = r.image_source) ∧
    (∀ r1 ∈ (ensureCanonicalStopForCustom cosAvg store city stop).1, r1.id = r.id →
        r1.image_url = r.image_url ∧ r1.image_source = r.image_source) :=
  ⟨ensurePreset_strong_image_frozen store city stop r hnodup hr hstrong,
   ensureCustom_strong_image_frozen cosAvg store city stop r hnodup hr hstrong hurl⟩

/-- Witness for the amended C7 theorem: a places-sourced row with a stored
URL survives a user-path resolution carrying a candidate image. -/
theorem strong_image_with_url_is_never_overwritten_witness :
    samplePlacesRowWithUrl.image_url = samplePlacesRowWithUrl.image_url ∧
      samplePlacesRowWithUrl.image_source = samplePlacesRowWithUrl.image_source :=
  (strong_image_with_url_is_never_overwritten cosFlat [samplePlacesRowWithUrl] "salem"
      sampleUserStop samplePlacesRowWithUrl (by decide) (by decide) (by decide) (by decide)).2
    samplePlacesRowWithUrl (by decide) rfl

theorem ensureCustom_empty (cosAvg : ℚ → ℚ) (city : String) (stop : StopInput) :
    ensureCanonicalStopForCustom cosAvg [] city stop =
      ([customInsertRow city stop], customInsertRow city stop) := rfl

theorem ensureCustom_nearest_snd_id (cosAvg : ℚ → ℚ) (store : List CanonicalStopRow)
    (city : String) (stop : StopInput) (n : CanonicalStopRow)
    (h : findNearestCanonicalStop cosAvg store city stop.lat stop.lng = some n) :
    (ensureCanonicalStopForCustom cosAvg store city stop).2.id = n.id := by
  simp only [ensureCanonicalStopForCustom, h]
  split
  · rfl
  · rfl

theorem findNearest_singleton (cosAvg : ℚ → ℚ) (row : CanonicalStopRow) (city : String)
    (hc : row.city = city) (lat lng : ℚ) :
    findNearestCanonicalStop cosAvg [row] city lat lng =
      if distanceMetersSq cosAvg lat lng row.lat row.lng > CANONICAL_MATCH_RADIUS_METERS ^ 2
      then none else some row := by
  subst hc
  simp [findNearestCanonicalStop, nearestScan, nearestStep, List.filter]

theorem round_eq_abs_sub_le_one (x y : ℚ) (h : round x = round y) : |x - y| ≤ 1 := by
  have hc : ((round x : ℤ) : ℚ) = ((round y : ℤ) : ℚ) := by rw [h]
  have hxy : |x - y| ≤ |x - ((round x : ℤ) : ℚ)| + |((round y : ℤ) : ℚ) - y| := by
    calc |x - y| = |(x - ((round x : ℤ) : ℚ)) + (((round y : ℤ) : ℚ) - y)| := by
          rw [hc]; ring_nf
    _ ≤ |x - ((round x : ℤ) : ℚ)| + |((round y : ℤ) : ℚ) - y| := abs_add _ _
  have h1 := abs_sub_round x
  have h2 := abs_sub_round y
  have h3 : |((round y : ℤ) : ℚ) - y| = |y - ((round y : ℤ) : ℚ)| := abs_sub_comm _ _
  linarith

theorem toFixed6_eq_abs_le (a b : ℚ) (h : toFixed6 a = toFixed6 b) :
    |a - b| ≤ 1 / 1000000 := by
  have h1 : |a * 1000000 - b * 1000000| ≤ 1 := round_eq_abs_sub_le_one _ _ h
  have h2 : |a - b| * 1000000 ≤ 1 := by
    calc |a - b| * 1000000 = |(a - b) * 1000000| := by
          rw [abs_mul]; norm_num
    _ = |a * 1000000 - b * 1000000| := by ring_nf
    _ ≤ 1 := h1
  linarith

theorem distanceMetersSq_le_of_keys_eq (cosAvg : ℚ → ℚ) (hcos : ∀ x : ℚ, |cosAvg x| ≤ 1)
    (aLat aLng bLat bLng : ℚ)
    (hla : toFixed6 aLat = toFixed6 bLat) (hln : toFixed6 aLng = toFixed6 bLng) :
    distanceMetersSq cosAvg aLat aLng bLat bLng ≤ CANONICAL_MATCH_RADIUS_METERS ^ 2 := by
  have h1 := toFixed6_eq_abs_le _ _ hla
  have h2 := toFixed6_eq_abs_le _ _ hln
  have hc := hcos ((aLat + bLat) / 2)
  have e1 : (aLat - bLat) ^ 2 ≤ (1 / 1000000) ^ 2 := by
    rw [← sq_abs]
    exact pow_le_pow_left₀ (abs_nonneg _) h1 2
  have e2 : (aLng - bLng) ^ 2 ≤ (1 / 1000000) ^ 2 := by
    rw [← sq_abs]
    exact pow_le_pow_left₀ (abs_nonneg _) h2 2
  have e3 : (cosAvg ((aLat + bLat) / 2)) ^ 2 ≤ 1 := by
    rw [← sq_abs]
    calc |cosAvg ((aLat + bLat) / 2)| ^ 2 ≤ 1 ^ 2 :=
          pow_le_pow_left₀ (abs_nonneg _) hc 2
    _ = 1 := one_pow 2
  have e4 : (aLng - bLng) ^ 2 * (cosAvg ((aLat + bLat) / 2)) ^ 2 ≤ (1 / 1000000) ^ 2 * 1 :=
    mul_le_mul e2 e3 (sq_nonneg _) (by positivity)
  simp only [distanceMetersSq, CANONICAL_MATCH_RADIUS_METERS]
  nlinarith [e1, e4, sq_nonneg (aLat - bLat), sq_nonneg (aLng - bLng)]

/-- C1: resolving two user stops of the same city against a store with no
pre-existing rows yields the same canonical id exactly when their squared
planar-approximation distance is within the squared 50 m radius.  `cosAvg`
abstracts the cosine factor and is only assumed bounded by 1 in absolute
value, as the real cosine is. -/
theorem user_dedup_radius_iff (cosAvg : ℚ → ℚ) (hcos : ∀ x : ℚ, |cosAvg x| ≤ 1)
    (city : String) (sA sB : StopInput) :
    ((ensureCanonicalStopForCustom cosAvg
        (ensureCanonicalStopForCustom cosAvg [] city sA).1 city sB).2.id =
      (ensureCanonicalStopForCustom cosAvg [] city sA).2.id) ↔
    distanceMetersSq cosAvg sA.lat sA.lng sB.lat sB.lng ≤
      CANONICAL_MATCH_RADIUS_METERS ^ 2 := by
  rw [ensureCustom_empty]
  dsimp only
  by_cases hd : distanceMetersSq cosAvg sB.lat sB.lng sA.lat sA.lng >
      CANONICAL_MATCH_RADIUS_METERS ^ 2
  · have hnone : findNearestCanonicalStop cosAvg [customInsertRow city sA] city
        sB.lat sB.lng = none := by
      rw [findNearest_singleton cosAvg _ city rfl]
      exact if_pos hd
    have hRHS : ¬ (distanceMetersSq cosAvg sA.lat sA.lng sB.lat sB.lng ≤
        CANONICAL_MATCH_RADIUS_METERS ^ 2) := by
      rw [distanceMetersSq_symm cosAvg sA.lat sA.lng sB.lat sB.lng]
      exact not_le.mpr hd
    have hids : canonicalIdForCustomStop city sB ≠ (customInsertRow city sA).id := by
      intro he
      have hinj := CanonId.custom.inj he
      exact absurd
        (distanceMetersSq_le_of_keys_eq cosAvg hcos sB.lat sB.lng sA.lat sA.lng
          hinj.2.2.1 hinj.2.2.2)
        (not_le.mpr hd)
    have hgid : getCanonicalStopById [customInsertRow city sA]
        (canonicalIdForCustomStop city sB) = none := by
      rw [getCanonicalStopById]
      rw [List.find?_cons_of_neg, List.find?_nil]
      simp only [decide_eq_true_eq]
      exact fun he => hids he.symm
    simp only [ensureCanonicalStopForCustom, hnone, hgid]
    exact iff_of_false hids hRHS
  · have hsome : findNearestCanonicalStop cosAvg [customInsertRow city sA] city
        sB.lat sB.lng = some (customInsertRow city sA) := by
      rw [findNearest_singleton cosAvg _ city rfl]
      exact if_neg hd
    rw [ensureCustom_nearest_snd_id cosAvg _ city sB _ hsome]
    refine iff_of_true rfl ?_
    rw [distanceMetersSq_symm cosAvg sA.lat sA.lng sB.lat sB.lng]
    exact not_lt.mp hd

/-- Witness for the C1 theorem at two coincident stops with the constant
cosine bound. -/
theorem user_dedup_radius_iff_witness :
    (∀ x : ℚ, |cosFlat x| ≤ 1) ∧
    (((ensureCanonicalStopForCustom cosFlat
        (ensureCanonicalStopForCustom cosFlat [] "salem"
          ⟨"a", "Stop A", 0, 0, ""⟩).1 "salem" ⟨"b", "Stop B", 0, 0, ""⟩).2.id =
      (ensureCanonicalStopForCustom cosFlat [] "salem" ⟨"a", "Stop A", 0, 0, ""⟩).2.id) ↔
      distanceMetersSq cosFlat 0 0 0 0 ≤ CANONICAL_MATCH_RADIUS_METERS ^ 2) :=
  ⟨fun x => by norm_num [cosFlat],
   user_dedup_radius_iff cosFlat (fun x => by norm_num [cosFlat]) "salem"
     ⟨"a", "Stop A", 0, 0, ""⟩ ⟨"b", "Stop B", 0, 0, ""⟩⟩

/-- C5 (counterexample): with mode `force_regenerate_script`, a stop whose
stored asset has script `"hello"` and whose generation call throws persists a
`null` script — the claim's retention clause ("the persisted script remains
whatever existing script value was present") fails for the script-forcing
modes, which overwrite the stored script. -/
theorem forcedScriptFailureDropsStoredScript :
    (findAsset (genStWith [assetScriptHello]).assets (CanonId.preset "salem" "a")
        Persona.adult).bind (fun a => a.script) = some "hello" ∧
    (findAsset (presetScriptStep forceScriptCfg "salem" "r" Persona.adult 2
          (ScriptOutcome.err "boom") 0 stopA (genStWith [assetScriptHello])).1.assets
        (CanonId.preset "salem" "a") Persona.adult).bind (fun a => a.script) = none := by
  constructor <;> decide

/-- Witness for `scriptPhaseFailureHandling` at a concrete forced-mode failing
stop: the warning count increments. -/
theorem scriptPhaseFailureHandling_witness :
    (presetScriptStep forceScriptCfg "salem" "r" Persona.adult 2 (ScriptOutcome.err "boom") 0
        stopA (genStWith [assetScriptHello])).1.warningCount =
      (genStWith [assetScriptHello]).warningCount + 1 :=
  ((scriptPhaseFailureHandling forceScriptCfg "salem" "r" Persona.adult 2 0 stopA
      (genStWith [assetScriptHello])).1 "boom" (by decide)).2.1

/-- C6 (counterexample): with mode `reuse_existing`, no replay override, and a
stored bare placeholder path `"/audio/a.mp3"` — which
`isUsableGeneratedAudioUrl` rejects — the preset audio step still reuses the
stored URL instead of synthesising a fresh one, contradicting the claim's
"only if usable" direction for the preset orchestrator. -/
theorem presetAudioPhaseReusesUnusableStoredUrl :
    isUsableGeneratedAudioUrl (some "/audio/a.mp3") = false ∧
    (findAsset (presetAudioStep reuseCfg Persona.adult 2
          (AudioOutcome.ok "http://cdn.example/a.mp3") rowStateA
          (genStWith [assetPlaceholderAudio])).assets
        (CanonId.preset "salem" "a") Persona.adult).bind (fun a => a.audio_url) =
      some "/audio/a.mp3" := by
  constructor <;> decide

/-- Witness for `audioReuseUsabilityPolicy` at a concrete unusable stored URL:
the reuse happens and the audio-ready counter is not incremented. -/
theorem audioReuseUsabilityPolicy_witness :
    (presetAudioStep reuseCfg Persona.adult 2 (AudioOutcome.ok "http://cdn.example/a.mp3")
        rowStateA (genStWith [assetPlaceholderAudio])).audioReadyCount =
      (if isUsableGeneratedAudioUrl (some "/audio/a.mp3") then
        (genStWith [assetPlaceholderAudio]).audioReadyCount + 1
      else (genStWith [assetPlaceholderAudio]).audioReadyCount) :=
  ((audioReuseUsabilityPolicy reuseCfg Persona.adult 2 rowStateA
      (genStWith [assetPlaceholderAudio]) none none none none
      (AudioOutcome.ok "http://cdn.example/a.mp3")).1 "/audio/a.mp3"
      (AudioOutcome.ok "http://cdn.example/a.mp3") (by decide) (by decide) (by decide)).2.1

/-- Witness for `replayOverridePrecedence`: a one-stop run in reuse mode with a
whitespace-padded replay override persists the trimmed override URL. -/
theorem replayOverridePrecedence_witness :
    (findAsset (runPresetJob replayCfg "r" "salem" Persona.adult [stopA]
        (fun _ => ScriptOutcome.ok "text") (fun _ => AudioOutcome.ok "http://cdn.example/x.mp3")
        (genStWith [])).assets
      (CanonId.preset "salem" "a") Persona.adult).bind (fun a => a.audio_url) =
      some "https://replay.example/a.mp3" :=
  replayOverridePrecedence replayCfg "r" "salem" Persona.adult [stopA]
    (fun _ => ScriptOutcome.ok "text") (fun _ => AudioOutcome.ok "http://cdn.example/x.mp3")
    (genStWith []) stopA "https://replay.example/a.mp3" (by decide) (by decide)

/-- Witness for `presetJobFinalStatusPolicy`: the empty run produces no usable
audio, so the job ends `failed`. -/
theorem presetJobFinalStatusPolicy_witness :
    (runPresetJob reuseCfg "r" "salem" Persona.adult [] (fun _ => ScriptOutcome.ok "t")
        (fun _ => AudioOutcome.ok "u") (genStWith [])).job.status = JobStatus.failed :=
  ((presetJobFinalStatusPolicy reuseCfg "r" "salem" Persona.adult []
      (fun _ => ScriptOutcome.ok "t") (fun _ => AudioOutcome.ok "u") (genStWith [])).1
      (by decide)).2.1

/-- Witness for `presetProgressReporting`: a one-stop run ends with the job row
at progress 100. -/
theorem presetProgressReporting_witness :
    (runPresetJob reuseCfg "r" "salem" Persona.adult [stopA] (fun _ => ScriptOutcome.ok "t")
        (fun _ => AudioOutcome.ok "http://cdn.example/a.mp3") (genStWith [])).job.progress =
      100 :=
  (presetProgressReporting reuseCfg "r" "salem" Persona.adult [stopA]
      (fun _ => ScriptOutcome.ok "t") (fun _ => AudioOutcome.ok "http://cdn.example/a.mp3")
      (genStWith []) (by decide)).2.2.2

end ConcreteEvaluation
